import Mathlib

/-!
Verification of the bpgsql PostgreSQL v2 wire-protocol client (src/bpgsql.py).

Shallow embedding conventions:
  * wire bytes and Python byte-strings are `List Nat` (each element a byte value);
  * Python `None`-able attributes are `Option _`;
  * code that can raise a Python exception returns `Except PyErr _`;
  * Python objects that are mutated through shared references (the `_PgType`
    descriptors held by `_TypeManager`) live in an explicit heap
    (`List PgType`, addresses are list indices);
  * the two external primitives used by authentication (`crypt.crypt`,
    `md5.new(..).hexdigest()`) are parameters (`Ext`), never inspected.
-/

set_option maxRecDepth 4000

namespace Bpgsql

/-- Python exception kinds that the embedded code can raise.  The first group
are raw Python exceptions, the second group are the DB-API errors defined by
the module itself. -/
inductive PyErr where
  | attributeError
  | indexError
  | typeError
  | valueError
  | unicodeDecodeError
  | operationalError
  | interfaceError
  | databaseError (msg : List Nat)
deriving DecidableEq, Repr

/-- Errors in the module's own DB-API hierarchy (subclasses of `Error`);
`attributeError`, `indexError`, ... are raw Python exceptions. -/
def PyErr.isDbApi : PyErr → Bool
  | .operationalError => true
  | .interfaceError => true
  | .databaseError _ => true
  | _ => false

/-- Source `Connection.__read_bytes`: take exactly `n` bytes from the input buffer;
a short buffer means the backend closed the connection (`OperationalError`). -/
def readBytesE (n : Nat) (input : List Nat) : Except PyErr (List Nat × List Nat) :=
  if n ≤ input.length then .ok (input.take n, input.drop n) else .error .operationalError

/-- Source `Connection.__read_string`: read up to (and consuming, but not returning)
the first occurrence of terminator byte `t`; running out of data is a closed
connection (`OperationalError`). -/
def readStringE (t : Nat) : List Nat → Except PyErr (List Nat × List Nat)
  | [] => .error .operationalError
  | b :: rest =>
    if b = t then .ok ([], rest)
    else
      match readStringE t rest with
      | .error e => .error e
      | .ok (s, r) => .ok (b :: s, r)

/-- Source `_unpack('!i', ...)`: big-endian signed 32-bit integer from four bytes. -/
def int32be (b0 b1 b2 b3 : Nat) : Int :=
  let u : Nat := ((b0 * 256 + b1) * 256 + b2) * 256 + b3
  if u < 2 ^ 31 then (u : Int) else (u : Int) - 2 ^ 32

/-- Source `_unpack('!h', ...)`: big-endian signed 16-bit integer from two bytes. -/
def int16be (b0 b1 : Nat) : Int :=
  let u : Nat := b0 * 256 + b1
  if u < 2 ^ 15 then (u : Int) else (u : Int) - 2 ^ 16

/-- Source `_pack('!i', n)`: big-endian two's-complement 32-bit encoding. -/
def int32beBytes (n : Int) : List Nat :=
  let u : Nat := (n % (2 ^ 32 : Nat)).toNat
  [u / 2 ^ 24 % 256, u / 2 ^ 16 % 256, u / 2 ^ 8 % 256, u % 256]

/-- Read four bytes and decode them as a big-endian signed int32
(`_unpack('!i', self.__read_bytes(4))`). -/
def readInt32E : List Nat → Except PyErr (Int × List Nat)
  | b0 :: b1 :: b2 :: b3 :: rest => .ok (int32be b0 b1 b2 b3, rest)
  | _ => .error .operationalError

/-- Read two bytes and decode them as a big-endian signed int16. -/
def readInt16E : List Nat → Except PyErr (Int × List Nat)
  | b0 :: b1 :: rest => .ok (int16be b0 b1, rest)
  | _ => .error .operationalError

/-- Source `Connection.__read_bytes` called with a *signed* count, as done for field
payloads.  Python string slicing makes a negative count `k` behave as
`buf[:k], buf[k:]`, i.e. everything but the last `|k|` bytes is returned and
the last `|k|` bytes remain buffered; no blocking happens in that case. -/
def readSized (sz : Int) (input : List Nat) : Except PyErr (List Nat × List Nat) :=
  if 0 ≤ sz then
    if sz.toNat ≤ input.length then .ok (input.take sz.toNat, input.drop sz.toNat)
    else .error .operationalError
  else
    let k := sz.natAbs
    .ok (input.take (input.length - k), input.drop (input.length - k))

/-! ## Type mapping subsystem (`_PgType`, `_TypeManager`) -/

/-- The `type_id` tags used as second components of `_PgType`: the five DB-API
sentinel objects plus the two literal strings `'bool'` and `'unknown'`. -/
inductive TypeId where
  | STRING | BINARY | NUMBER | DATETIME | ROWID | boolTag | unknownTag
deriving DecidableEq, Repr

/-- Values produced by the per-field decoders.  Float and decimal values keep
their raw wire text (their numeric semantics is not needed by any claim). -/
inductive Value where
  | vstr (codepoints : List Nat)
  | vbytes (bs : List Nat)
  | vint (n : Int)
  | vfloat (raw : List Nat)
  | vdecimal (raw : List Nat)
  | vbool (b : Bool)
  | vdate (y m d : Nat)
deriving DecidableEq, Repr

/-- The decoder functions installed by the module's default registrations. -/
inductive Converter where
  | charConvert      -- `_char_convert` : utf-8 decode
  | identityConv     -- `_identity`
  | intConv          -- `int`
  | longConv         -- `long`
  | floatConv        -- `float`
  | decimalConv      -- `Decimal`
  | boolConvert      -- `_bool_convert`
  | dateConvert      -- `_date_convert`
deriving DecidableEq, Repr

/-- One step of a UTF-8 decoder: decode the first code point. -/
def utf8Step : List Nat → Option (Nat × List Nat)
  | b :: rest =>
    if b < 128 then some (b, rest)
    else if 192 ≤ b ∧ b < 224 then
      match rest with
      | c1 :: r1 => if 128 ≤ c1 ∧ c1 < 192 then some ((b - 192) * 64 + (c1 - 128), r1) else none
      | _ => none
    else if 224 ≤ b ∧ b < 240 then
      match rest with
      | c1 :: c2 :: r2 =>
        if (128 ≤ c1 ∧ c1 < 192) ∧ (128 ≤ c2 ∧ c2 < 192) then
          some (((b - 224) * 64 + (c1 - 128)) * 64 + (c2 - 128), r2)
        else none
      | _ => none
    else if 240 ≤ b ∧ b < 248 then
      match rest with
      | c1 :: c2 :: c3 :: r3 =>
        if (128 ≤ c1 ∧ c1 < 192) ∧ (128 ≤ c2 ∧ c2 < 192) ∧ (128 ≤ c3 ∧ c3 < 192) then
          some ((((b - 240) * 64 + (c1 - 128)) * 64 + (c2 - 128)) * 64 + (c3 - 128), r3)
        else none
      | _ => none
    else none
  | [] => none

theorem utf8Step_shrink {l r : List Nat} {cp : Nat} (h : utf8Step l = some (cp, r)) :
    r.length < l.length := by
  match l with
  | [] => simp [utf8Step] at h
  | b :: rest =>
    simp only [utf8Step] at h
    split at h
    · cases h; simp
    · split at h
      · match rest with
        | [] => simp at h
        | c1 :: r1 =>
          simp only at h
          split at h
          · cases h; simp; omega
          · simp at h
      · split at h
        · match rest with
          | [] => simp at h
          | [c1] => simp at h
          | c1 :: c2 :: r2 =>
            simp only at h
            split at h
            · cases h; simp; omega
            · simp at h
        · split at h
          · match rest with
            | [] => simp at h
            | [c1] => simp at h
            | [c1, c2] => simp at h
            | c1 :: c2 :: c3 :: r3 =>
              simp only at h
              split at h
              · cases h; simp; omega
              · simp at h
          · simp at h

/-- Source `bytes.decode('utf-8')`: full decode or failure. -/
def utf8Decode (l : List Nat) : Option (List Nat) :=
  match l with
  | [] => some []
  | b :: rest =>
    match h : utf8Step (b :: rest) with
    | none => none
    | some (cp, r) =>
      match utf8Decode r with
      | none => none
      | some cps => some (cp :: cps)
termination_by l.length
decreasing_by
  exact utf8Step_shrink h

/-- Digit characters of `n` in decimal, most significant first (via fuel). -/
def digitsRevAux : Nat → Nat → List Nat
  | 0, _ => []
  | fuel + 1, n => if n < 10 then [48 + n] else (48 + n % 10) :: digitsRevAux fuel (n / 10)

/-- Source `str(n)` for a natural number, as character codes. -/
def natDigits (n : Nat) : List Nat := (digitsRevAux (n + 1) n).reverse

/-- Is `b` an ASCII decimal digit? -/
def isDigit (b : Nat) : Bool := 48 ≤ b ∧ b ≤ 57

/-- Numeric value of a digit string. -/
def digitVal (l : List Nat) : Int := l.foldl (fun acc b => acc * 10 + ((b : Int) - 48)) 0

/-- Python `int(s)` applied to field text: an optional sign followed by a
nonempty digit string, anything else a `ValueError`. -/
def parseInt : List Nat → Option Int
  | [] => none
  | 43 :: rest => if rest ≠ [] ∧ rest.all isDigit then some (digitVal rest) else none
  | 45 :: rest => if rest ≠ [] ∧ rest.all isDigit then some (-(digitVal rest)) else none
  | l => if l.all isDigit then some (digitVal l) else none

/-- Loose well-formedness test used to model `float(s)` / `Decimal(s)`
(claims never inspect numeric semantics, only success/failure shape). -/
def numericShape (l : List Nat) : Bool :=
  l ≠ [] && l.all (fun b => isDigit b || b = 43 || b = 45 || b = 46 || b = 101 || b = 69)

/-- Run one of the registered decoder functions on the field payload, as the
Python functions behave: utf-8 decode for character data, numeric parses that
raise `ValueError` on bad text, `_bool_convert` raising `InterfaceError` on
anything other than `t`/`f`, `_date_convert` splitting on `-`. -/
def Converter.run : Converter → List Nat → Except PyErr Value
  | .charConvert, bs =>
    match utf8Decode bs with
    | some cps => .ok (.vstr cps)
    | none => .error .unicodeDecodeError
  | .identityConv, bs => .ok (.vbytes bs)
  | .intConv, bs =>
    match parseInt bs with
    | some n => .ok (.vint n)
    | none => .error .valueError
  | .longConv, bs =>
    match parseInt bs with
    | some n => .ok (.vint n)
    | none => .error .valueError
  | .floatConv, bs => if numericShape bs then .ok (.vfloat bs) else .error .valueError
  | .decimalConv, bs => if numericShape bs then .ok (.vdecimal bs) else .error .valueError
  | .boolConvert, bs =>
    if bs = [116] then .ok (.vbool true)
    else if bs = [102] then .ok (.vbool false)
    else .error .interfaceError
  | .dateConvert, bs =>
    match (bs.splitOn 45).map parseInt with
    | [some y, some m, some d] =>
      if 0 ≤ y ∧ 0 ≤ m ∧ 0 ≤ d ∧ 1 ≤ y ∧ y ≤ 9999 ∧ 1 ≤ m ∧ m ≤ 12 ∧ 1 ≤ d ∧ d ≤ 31 then
        .ok (.vdate y.toNat m.toNat d.toNat)
      else .error .valueError
    | _ => .error .valueError

/-- Source `_PgType`: a mutable descriptor object.  Its `oid` attribute starts as
`None` and is mutated in place by `register_oid`. -/
structure PgType where
  name : List Nat
  converter : Converter
  type_id : TypeId
  oid : Option Int
deriving DecidableEq, Repr

/-- Source `_DEFAULT_PGTYPE = _PgType('unknown', _char_convert, 'unknown')`. -/
def DEFAULT_PGTYPE : PgType :=
  { name := [117, 110, 107, 110, 111, 119, 110], converter := .charConvert,
    type_id := .unknownTag, oid := none }

/-- Heap of descriptor objects; an address is an index into the list. -/
abbrev Heap := List PgType

/-- Dereference an address.  Python references are always valid; the default
is a modelling artifact that is never reached for well-formed states. -/
def heapGet (heap : Heap) (addr : Nat) : PgType := heap.getD addr DEFAULT_PGTYPE

/-- Association-list lookup with Python `dict` semantics. -/
def lookupA {κ α : Type} [DecidableEq κ] : List (κ × α) → κ → Option α
  | [], _ => none
  | (k0, v) :: rest, k => if k0 = k then some v else lookupA rest k

/-- Association-list insert/overwrite with Python `dict` semantics. -/
def insertA {κ α : Type} [DecidableEq κ] (l : List (κ × α)) (k : κ) (v : α) : List (κ × α) :=
  match l with
  | [] => [(k, v)]
  | (k0, v0) :: rest => if k0 = k then (k, v) :: rest else (k0, v0) :: insertA rest k v

/-- Host-side Python types that can be handed to `python_to_sql`. -/
inductive PyType where
  | noneType | strType | intType | dateType
deriving DecidableEq, Repr

/-- Host-side Python values handed to `python_to_sql`.  `pstr` carries
character codes. -/
inductive PyVal where
  | pnone
  | pstr (s : List Nat)
  | pint (n : Int)
  | pdate (y m d : Nat)
deriving DecidableEq, Repr

/-- Source `type(obj)`. -/
def pyTypeOf : PyVal → PyType
  | .pnone => .noneType
  | .pstr _ => .strType
  | .pint _ => .intType
  | .pdate _ _ _ => .dateType

/-- The host-value encoders registered via `register_python`; the module
registers exactly one, for `datetime.date`. -/
inductive Encoder where
  | dateEnc
deriving DecidableEq, Repr

/-- Left-pad a decimal rendering with `0` characters to width `w`. -/
def padZeros (w n : Nat) : List Nat :=
  List.replicate (w - (natDigits n).length) 48 ++ natDigits n

/-- Source `str(datetime.date(y, m, d))`: ISO format `YYYY-MM-DD`. -/
def pyDateStr (y m d : Nat) : List Nat :=
  padZeros 4 y ++ [45] ++ padZeros 2 m ++ [45] ++ padZeros 2 d

/-- Apply a registered host encoder; the module's single encoder is
`lambda x: "'%s'::date" % str(x)`.  (Dispatch is by `type(obj)`, so the
non-date case is unreachable.) -/
def Encoder.runEnc : Encoder → PyVal → PyVal
  | .dateEnc, .pdate y m d =>
    .pstr ([39] ++ pyDateStr y m d ++ [39, 58, 58, 100, 97, 116, 101])
  | .dateEnc, _ => .pstr []

/-- Source `_TypeManager`: two descriptor indexes plus host encoders.  Index values
are heap addresses, because the dict values are shared mutable objects. -/
structure TypeManager where
  pg_types : List (List Nat × Nat)
  oid_map : List (Int × Nat)
  python_converters : List (PyType × Encoder)
deriving DecidableEq, Repr

/-- Source `_TypeManager._clone`: fresh manager with `pg_types` and
`python_converters` shallow-copied (descriptor addresses shared) and an empty
`oid_map`. -/
def cloneTM (tm : TypeManager) : TypeManager :=
  { pg_types := tm.pg_types, oid_map := [], python_converters := tm.python_converters }

/-- Source `_TypeManager.get_type`: `self.oid_map.get(oid, _DEFAULT_PGTYPE)`. -/
def getType (heap : Heap) (tm : TypeManager) (oid : Int) : PgType :=
  match lookupA tm.oid_map oid with
  | some addr => heapGet heap addr
  | none => DEFAULT_PGTYPE

/-- Source `_TypeManager.get_conversion`:
`self.oid_map.get(oid, _DEFAULT_PGTYPE).converter`. -/
def getConversion (heap : Heap) (tm : TypeManager) (oid : Int) : Converter :=
  (match lookupA tm.oid_map oid with
   | some addr => heapGet heap addr
   | none => DEFAULT_PGTYPE).converter

/-- Source `_TypeManager.register_oid`: bind `oid` to the descriptor under `name`,
creating a default `'unknown'` descriptor if the name is new; in both cases
the descriptor's `oid` attribute is overwritten in place and the OID index is
pointed at it. -/
def register_oid (heap : Heap) (tm : TypeManager) (oid : Int) (name : List Nat) :
    Heap × TypeManager :=
  match lookupA tm.pg_types name with
  | some addr =>
    let pg := heapGet heap addr
    (heap.set addr { pg with oid := some oid },
     { tm with oid_map := insertA tm.oid_map oid addr })
  | none =>
    let addr := heap.length
    (heap ++ [{ name := name, converter := .charConvert, type_id := .unknownTag,
                oid := some oid }],
     { tm with pg_types := insertA tm.pg_types name addr,
               oid_map := insertA tm.oid_map oid addr })

/-- One name's worth of `_TypeManager.register_pgsql`: remember the old
descriptor's `oid` attribute (if the name was known), allocate a fresh
descriptor whose `oid` attribute is `None`, install it under the name, and
rewrite the OID index only when the old attribute was set. -/
def register_pgsql_step (heap : Heap) (tm : TypeManager) (name : List Nat)
    (conv : Converter) (tid : TypeId) : Heap × TypeManager :=
  let oldOid : Option Int :=
    match lookupA tm.pg_types name with
    | some addr => (heapGet heap addr).oid
    | none => none
  let addr := heap.length
  let heap1 := heap ++ [{ name := name, converter := conv, type_id := tid, oid := none }]
  let tm1 := { tm with pg_types := insertA tm.pg_types name addr }
  match oldOid with
  | some o => (heap1, { tm1 with oid_map := insertA tm1.oid_map o addr })
  | none => (heap1, tm1)

/-- Source `_TypeManager.register_pgsql` over its (possibly singleton) name list. -/
def register_pgsql (heap : Heap) (tm : TypeManager) (names : List (List Nat))
    (conv : Converter) (tid : TypeId) : Heap × TypeManager :=
  names.foldl (fun p nm => register_pgsql_step p.1 p.2 nm conv tid) (heap, tm)

/-- Source `_TypeManager.register_python`. -/
def register_python (tm : TypeManager) (k : PyType) (enc : Encoder) : TypeManager :=
  { tm with python_converters := insertA tm.python_converters k enc }

/-- Source `_TypeManager.python_to_sql`: dispatch to a registered host encoder;
otherwise `None` becomes the literal `NULL`, strings are single-quoted with
`\` and `'` escaped by `str.replace`, and anything else is returned as-is. -/
def replace1 (c : Nat) (r : List Nat) (s : List Nat) : List Nat :=
  (s.map (fun x => if x = c then r else [x])).flatten

/-- The literal `NULL`. -/
def nullLit : List Nat := [78, 85, 76, 76]

/-- Source `_TypeManager.python_to_sql`. -/
def python_to_sql (tm : TypeManager) (obj : PyVal) : PyVal :=
  match lookupA tm.python_converters (pyTypeOf obj) with
  | some enc => enc.runEnc obj
  | none =>
    match obj with
    | .pnone => .pstr nullLit
    | .pstr s => .pstr ([39] ++ replace1 39 [92, 39] (replace1 92 [92, 92] s) ++ [39])
    | v => v

/-- PostgreSQL type-name string constants used by the default registrations. -/
def nmChar : List Nat := [99, 104, 97, 114]

def nmVarchar : List Nat := [118, 97, 114, 99, 104, 97, 114]

def nmText : List Nat := [116, 101, 120, 116]

def nmBytea : List Nat := [98, 121, 116, 101, 97]

def nmInt2 : List Nat := [105, 110, 116, 50]

def nmInt4 : List Nat := [105, 110, 116, 52]

def nmInt8 : List Nat := [105, 110, 116, 56]

def nmFloat4 : List Nat := [102, 108, 111, 97, 116, 52]

def nmFloat8 : List Nat := [102, 108, 111, 97, 116, 56]

def nmNumeric : List Nat := [110, 117, 109, 101, 114, 105, 99]

def nmOid : List Nat := [111, 105, 100]

def nmBool : List Nat := [98, 111, 111, 108]

def nmDate : List Nat := [100, 97, 116, 101]

/-- The module-level `DEFAULT_TYPE_MANAGER` build: the nine `register_pgsql`
calls followed by the single `register_python` call, starting from an empty
manager and an empty heap. -/
def defaultSetup : Heap × TypeManager :=
  let p0 : Heap × TypeManager := ([], { pg_types := [], oid_map := [], python_converters := [] })
  let p1 := register_pgsql p0.1 p0.2 [nmChar, nmVarchar, nmText] .charConvert .STRING
  let p2 := register_pgsql p1.1 p1.2 [nmBytea] .identityConv .BINARY
  let p3 := register_pgsql p2.1 p2.2 [nmInt2, nmInt4] .intConv .NUMBER
  let p4 := register_pgsql p3.1 p3.2 [nmInt8] .longConv .NUMBER
  let p5 := register_pgsql p4.1 p4.2 [nmFloat4, nmFloat8] .floatConv .NUMBER
  let p6 := register_pgsql p5.1 p5.2 [nmNumeric] .decimalConv .NUMBER
  let p7 := register_pgsql p6.1 p6.2 [nmOid] .longConv .ROWID
  let p8 := register_pgsql p7.1 p7.2 [nmBool] .boolConvert .boolTag
  let p9 := register_pgsql p8.1 p8.2 [nmDate] .dateConvert .DATETIME
  (p9.1, register_python p9.2 .dateType .dateEnc)

/-- The heap after the default registrations. -/
def defaultHeap : Heap := defaultSetup.1

/-- Source `DEFAULT_TYPE_MANAGER` after the default registrations. -/
def DEFAULT_TYPE_MANAGER : TypeManager := defaultSetup.2

/-! ## Result sets and row decoding (`_ResultSet`, `Connection.__read_row`) -/

/-- A decoded row: one entry per field, `none` for SQL NULL. -/
abbrev Row := List (Option Value)

/-- Source `_ResultSet`: per-statement result bundle.  `completed` is the attribute
set dynamically by `_pkt_C`; `messages` drops the constant `Warning` class
from the `(Warning, text)` pairs. -/
structure MResultSet where
  conversion : Option (List Converter)
  description : Option (List (List Nat × TypeId))
  error : Option (List Nat)
  null_byte_count : Nat
  num_fields : Nat
  rows : Option (List Row)
  messages : List (List Nat)
  completed : Option (List Nat)
deriving DecidableEq, Repr

/-- Source `_ResultSet.__init__`. -/
def freshRS : MResultSet :=
  { conversion := none, description := none, error := none, null_byte_count := 0,
    num_fields := 0, rows := none, messages := [], completed := none }

/-- One entry of a RowDescription packet: `(fieldname, oid, type_size,
type_modifier)`. -/
structure Descr where
  name : List Nat
  oid : Int
  size : Int
  modifier : Int
deriving DecidableEq, Repr

/-- Source `_ResultSet.set_description`: store the field count, the DB-API
description tuples (their five trailing `None`s omitted here), the NULL-bitmap
byte count `(num_fields + 7) >> 3`, and reset `rows` to `[]`. -/
def setDescription (rs : MResultSet) (descr : List Descr) (heap : Heap) (tm : TypeManager) :
    MResultSet :=
  { rs with
    num_fields := descr.length,
    description := some (descr.map (fun d => (d.name, (getType heap tm d.oid).type_id))),
    null_byte_count := (descr.length + 7) >>> 3,
    rows := some [] }

/-- The `null_bits` accumulator of `__read_row`:
`null_bits = (null_bits << 8) | ord(ch)` over the bitmap bytes. -/
def nullBitsOf (bs : List Nat) : Nat := bs.foldl (fun a b => (a <<< 8) ||| b) 0

/-- Source `result.conversion[field_num]`: subscripting `None` is a `TypeError`, an
out-of-range index an `IndexError`. -/
def convAt (conv : Option (List Converter)) (idx : Nat) : Except PyErr Converter :=
  match conv with
  | none => .error .typeError
  | some l =>
    match l[idx]? with
    | some c => .ok c
    | none => .error .indexError

/-- The field loop of `Connection.__read_row`: for each of `count` remaining
fields (current index `idx`, current `field_mask`), a set mask bit means read
an int32 length (minus 4 in ASCII mode), read that many payload bytes, and
apply the field's decoder; a clear bit appends a NULL and consumes nothing.
The mask is shifted right by one for the next field. -/
def readFields (ascii : Bool) (conv : Option (List Converter)) (nullBits : Nat) :
    Nat → Nat → Nat → List Nat → Except PyErr (Row × List Nat)
  | 0, _, _, input => .ok ([], input)
  | count + 1, idx, mask, input =>
    if nullBits &&& mask ≠ 0 then
      match readInt32E input with
      | .error e => .error e
      | .ok (sz, input1) =>
        match readSized (if ascii then sz - 4 else sz) input1 with
        | .error e => .error e
        | .ok (payload, input2) =>
          match convAt conv idx with
          | .error e => .error e
          | .ok c =>
            match c.run payload with
            | .error e => .error e
            | .ok v =>
              match readFields ascii conv nullBits count (idx + 1) (mask >>> 1) input2 with
              | .error e => .error e
              | .ok (row, rest) => .ok (some v :: row, rest)
    else
      match readFields ascii conv nullBits count (idx + 1) (mask >>> 1) input with
      | .error e => .error e
      | .ok (row, rest) => .ok (none :: row, rest)

/-- Source `Connection.__read_row`: read the NULL bitmap (`null_byte_count` bytes,
folded big-endian into `null_bits`, with `field_mask` starting at
`128 << ((null_byte_count - 1) * 8)` when the bitmap is nonempty), run the
field loop, and append the decoded row to `rows` (`AttributeError` if `rows`
is still `None` because no RowDescription arrived). -/
def readRow (ascii : Bool) (rs : MResultSet) (input : List Nat) :
    Except PyErr (MResultSet × List Nat) :=
  match readBytesE rs.null_byte_count input with
  | .error e => .error e
  | .ok (bitmapBytes, input1) =>
    match readFields ascii rs.conversion (nullBitsOf bitmapBytes) rs.num_fields 0
        (if rs.null_byte_count = 0 then 128 else 128 <<< ((rs.null_byte_count - 1) * 8))
        input1 with
    | .error e => .error e
    | .ok (row, rest) =>
      match rs.rows with
      | none => .error .attributeError
      | some rows0 => .ok ({ rs with rows := some (rows0 ++ [row]) }, rest)

/-! ### Claim-side row decoder (from the spec's words, for refinement)

The spec describes the row framing positionally: a NULL bitmap of exactly
`ceil(n/8)` bytes in which the most-significant bit of the *first* byte
corresponds to field 0, so field `i` is governed by bit `7 - i % 8` of byte
`i / 8`. -/

/-- Modelled from the spec: is field `i`'s bit set in the bitmap? -/
def specPresent (bitmapBytes : List Nat) (i : Nat) : Bool :=
  Nat.testBit (bitmapBytes.getD (i / 8) 0) (7 - i % 8)

/-- Modelled from the spec: the per-field loop, indexing the bitmap
positionally instead of via a shifting mask. -/
def specFields (ascii : Bool) (conv : Option (List Converter)) (bm : List Nat) :
    Nat → Nat → List Nat → Except PyErr (Row × List Nat)
  | 0, _, input => .ok ([], input)
  | count + 1, idx, input =>
    if specPresent bm idx then
      match readInt32E input with
      | .error e => .error e
      | .ok (sz, input1) =>
        match readSized (if ascii then sz - 4 else sz) input1 with
        | .error e => .error e
        | .ok (payload, input2) =>
          match convAt conv idx with
          | .error e => .error e
          | .ok c =>
            match c.run payload with
            | .error e => .error e
            | .ok v =>
              match specFields ascii conv bm count (idx + 1) input2 with
              | .error e => .error e
              | .ok (row, rest) => .ok (some v :: row, rest)
    else
      match specFields ascii conv bm count (idx + 1) input with
      | .error e => .error e
      | .ok (row, rest) => .ok (none :: row, rest)

/-- Modelled from the spec: decode one row of `n` fields — read a bitmap of
exactly `ceil(n/8)` bytes, then the per-field loop with MSB-first positional
bit addressing. -/
def specRowDecode (ascii : Bool) (n : Nat) (conv : Option (List Converter))
    (input : List Nat) : Except PyErr (Row × List Nat) :=
  match readBytesE ((n + 7) / 8) input with
  | .error e => .error e
  | .ok (bm, input1) => specFields ascii conv bm n 0 input1

/-! ## Connection protocol engine (`Connection`) -/

/-- External primitives used by `_pkt_R`: `crypt.crypt(passwd, salt)` and
`md5.new(data).hexdigest()`.  They are opaque parameters of the machine. -/
structure Ext where
  crypt : List Nat → List Nat → List Nat
  md5hex : List Nat → List Nat

/-- The mutable `Connection` attributes touched by packet handling.
`result` is `__result` (the batch under construction); `__current_result`
always aliases the last element of that list, so it is represented implicitly
as `result`'s last element (`__new_result` appends the fresh bundle it also
installs as current). -/
structure ConnState where
  heap : Heap
  type_manager : TypeManager
  authenticated : Bool
  ready : Bool
  result : Option (List MResultSet)
  notify_queue : List (List Nat × Int)
  func_result : Option (List Nat)
  backend_pid : Option Int
  backend_key : Option Int
  passwd : List Nat
  userid : List Nat
  stdin : List (List Nat)
  stdout : List (List Nat)
  sent : List (List Nat)
deriving DecidableEq, Repr

/-- Source `Connection.__new_result`: start the batch list if needed and append a
fresh bundle, which becomes the current result. -/
def newResult (s : ConnState) : ConnState :=
  match s.result with
  | none => { s with result := some [freshRS] }
  | some l => { s with result := some (l ++ [freshRS]) }

/-- Source `_pkt_A` (Notification Response): int32 pid, NUL-terminated channel name,
enqueued FIFO. -/
def pkt_A (s : ConnState) (input : List Nat) : Except PyErr (ConnState × List Nat) :=
  match readInt32E input with
  | .error e => .error e
  | .ok (pid, r1) =>
    match readStringE 0 r1 with
    | .error e => .error e
    | .ok (name, rest) =>
      .ok ({ s with notify_queue := s.notify_queue ++ [(name, pid)] }, rest)

/-- Source `__read_row` applied to `self.__current_result` (the last bundle); a
missing current result makes the attribute access in `__read_row` raise
`AttributeError`. -/
def applyReadRow (ascii : Bool) (s : ConnState) (input : List Nat) :
    Except PyErr (ConnState × List Nat) :=
  match s.result with
  | none => .error .attributeError
  | some l =>
    match l.getLast? with
    | none => .error .attributeError
    | some cur =>
      match readRow ascii cur input with
      | .error e => .error e
      | .ok (cur2, rest) => .ok ({ s with result := some (l.dropLast ++ [cur2]) }, rest)

/-- Source `_pkt_B` (Binary Row). -/
def pkt_B (s : ConnState) (input : List Nat) : Except PyErr (ConnState × List Nat) :=
  applyReadRow false s input

/-- Source `_pkt_C` (Completed Response): store the completion tag on the current
bundle and start a fresh one. -/
def pkt_C (s : ConnState) (input : List Nat) : Except PyErr (ConnState × List Nat) :=
  match readStringE 0 input with
  | .error e => .error e
  | .ok (tag, rest) =>
    match s.result with
    | none => .error .attributeError
    | some l =>
      match l.getLast? with
      | none => .error .attributeError
      | some cur =>
        .ok (newResult { s with result := some (l.dropLast ++ [{ cur with completed := some tag }]) },
             rest)

/-- Source `_pkt_D` (ASCII Row). -/
def pkt_D (s : ConnState) (input : List Nat) : Except PyErr (ConnState × List Nat) :=
  applyReadRow true s input

/-- Source `_pkt_E` (Error Response): with a current result, store the error on it
and start a fresh bundle; without one (startup), raise `DatabaseError`. -/
def pkt_E (s : ConnState) (input : List Nat) : Except PyErr (ConnState × List Nat) :=
  match s.result with
  | some l =>
    match l.getLast? with
    | some cur =>
      match readStringE 0 input with
      | .error e => .error e
      | .ok (msg, rest) =>
        .ok (newResult { s with result := some (l.dropLast ++ [{ cur with error := some msg }]) },
             rest)
    | none =>
      match readStringE 0 input with
      | .error e => .error e
      | .ok (msg, _) => .error (.databaseError msg)
  | none =>
    match readStringE 0 input with
    | .error e => .error e
    | .ok (msg, _) => .error (.databaseError msg)

/-- The line-reading loop of `_pkt_G` (CopyIn): returns the lines sent
verbatim, the final value of `lastline`, and the unread remainder of the
input source.  Reading stops at end-of-input (empty line) or at a line equal
to backslash-dot-newline. -/
def copyInLoop : List (List Nat) → Option (List Nat) →
    List (List Nat) × Option (List Nat) × List (List Nat)
  | [], last => ([], last, [])
  | s :: rest, last =>
    if s = [] ∨ s = [92, 46, 10] then ([], last, rest)
    else
      let p := copyInLoop rest (some s)
      (s :: p.1, p.2.1, p.2.2)

/-- Everything `_pkt_G` sends, in order: the verbatim lines, a lone newline
when the last transmitted line did not end in one, and the terminating
backslash-dot-newline. -/
def pkt_GSends (stdin : List (List Nat)) : List (List Nat) :=
  let p := copyInLoop stdin none
  p.1 ++
    (match p.2.1 with
     | some l => if l ≠ [] ∧ l.getLast? ≠ some 10 then [[10]] else []
     | none => []) ++
    [[92, 46, 10]]

/-- Source `_pkt_G` (CopyIn Response): stream the input source to the backend. -/
def pkt_G (s : ConnState) (input : List Nat) : Except PyErr (ConnState × List Nat) :=
  .ok ({ s with stdin := (copyInLoop s.stdin none).2.2, sent := s.sent ++ pkt_GSends s.stdin },
       input)

theorem readStringE_shrink {t : Nat} {l s r : List Nat} (h : readStringE t l = .ok (s, r)) :
    r.length < l.length := by
  induction l generalizing s r with
  | nil => simp [readStringE] at h
  | cons b rest ih =>
    simp only [readStringE] at h
    split at h
    · cases h; simp
    · match h2 : readStringE t rest with
      | .error e => rw [h2] at h; cases h
      | .ok (s1, r1) =>
        rw [h2] at h; cases h
        have := ih h2
        simp; omega

/-- The record loop of `_pkt_H` (CopyOut): read newline-terminated records
until the backslash-dot sentinel, collecting the records written to the
output. -/
def copyOutLoop (lines : List (List Nat)) (input : List Nat) :
    Except PyErr (List (List Nat) × List Nat) :=
  match h : readStringE 10 input with
  | .error e => .error e
  | .ok (line, rest) =>
    if line = [92, 46] then .ok (lines, rest)
    else copyOutLoop (lines ++ [line]) rest
termination_by input.length
decreasing_by
  exact readStringE_shrink h

/-- Source `_pkt_H` (CopyOut Response). -/
def pkt_H (s : ConnState) (input : List Nat) : Except PyErr (ConnState × List Nat) :=
  match copyOutLoop s.stdout input with
  | .error e => .error e
  | .ok (out, rest) => .ok ({ s with stdout := out }, rest)

/-- Source `_pkt_I` (EmptyQuery Response): the NUL-terminated payload is read and
only logged. -/
def pkt_I (s : ConnState) (input : List Nat) : Except PyErr (ConnState × List Nat) :=
  match readStringE 0 input with
  | .error e => .error e
  | .ok (_, rest) => .ok (s, rest)

/-- Source `_pkt_K` (Backend Key data): int32 pid, int32 key. -/
def pkt_K (s : ConnState) (input : List Nat) : Except PyErr (ConnState × List Nat) :=
  match readInt32E input with
  | .error e => .error e
  | .ok (pid, r1) =>
    match readInt32E r1 with
    | .error e => .error e
    | .ok (key, rest) =>
      .ok ({ s with backend_pid := some pid, backend_key := some key }, rest)

/-- Source `_pkt_N` (Notice Response): read the notice, then append it to the
current result's message list — unguarded, so a missing current result is an
`AttributeError`. -/
def pkt_N (s : ConnState) (input : List Nat) : Except PyErr (ConnState × List Nat) :=
  match readStringE 0 input with
  | .error e => .error e
  | .ok (n, rest) =>
    match s.result with
    | none => .error .attributeError
    | some l =>
      match l.getLast? with
      | none => .error .attributeError
      | some cur =>
        .ok ({ s with result := some (l.dropLast ++ [{ cur with messages := cur.messages ++ [n] }]) },
             rest)

/-- Source `_pkt_P` (Cursor Response): the cursor name is read and discarded. -/
def pkt_P (s : ConnState) (input : List Nat) : Except PyErr (ConnState × List Nat) :=
  match readStringE 0 input with
  | .error e => .error e
  | .ok (_, rest) => .ok (s, rest)

/-- Source `_pkt_R` (Startup Response): authentication state machine.  Codes: 0 OK,
1/2 Kerberos (unsupported), 3 cleartext password, 4 crypt with 2-byte salt,
5 MD5 with 4-byte salt, anything else unknown — the last three emit a
password packet. -/
def pkt_R (ext : Ext) (s : ConnState) (input : List Nat) :
    Except PyErr (ConnState × List Nat) :=
  match readInt32E input with
  | .error e => .error e
  | .ok (code, r1) =>
    if code = 0 then .ok ({ s with authenticated := true }, r1)
    else if code = 1 then .error .interfaceError
    else if code = 2 then .error .interfaceError
    else if code = 3 then
      .ok ({ s with sent := s.sent ++ [int32beBytes ((s.passwd.length : Int) + 5) ++ s.passwd ++ [0]] },
           r1)
    else if code = 4 then
      match readBytesE 2 r1 with
      | .error e => .error e
      | .ok (salt, r2) =>
        let cpwd := ext.crypt s.passwd salt
        .ok ({ s with sent := s.sent ++ [int32beBytes ((cpwd.length : Int) + 5) ++ cpwd ++ [0]] },
             r2)
    else if code = 5 then
      match readBytesE 4 r1 with
      | .error e => .error e
      | .ok (salt, r2) =>
        let m1 := ext.md5hex (s.passwd ++ s.userid)
        let m2 := ext.md5hex (m1 ++ salt)
        let m3 := [109, 100, 53] ++ m2 ++ [0]
        .ok ({ s with sent := s.sent ++ [int32beBytes ((m3.length : Int) + 4) ++ m3] }, r2)
    else .error .interfaceError

/-- Read the field descriptors of a RowDescription packet: per field, a
NUL-terminated name then 10 bytes unpacked as `!ihi`. -/
def readDescrs : Nat → List Nat → Except PyErr (List Descr × List Nat)
  | 0, input => .ok ([], input)
  | count + 1, input =>
    match readStringE 0 input with
    | .error e => .error e
    | .ok (name, r1) =>
      match readInt32E r1 with
      | .error e => .error e
      | .ok (oid, r2) =>
        match readInt16E r2 with
        | .error e => .error e
        | .ok (size, r3) =>
          match readInt32E r3 with
          | .error e => .error e
          | .ok (modifier, r4) =>
            match readDescrs count r4 with
            | .error e => .error e
            | .ok (ds, rest) =>
              .ok ({ name := name, oid := oid, size := size, modifier := modifier } :: ds, rest)

/-- Source `_pkt_T` (Row Description): int16 field count, the descriptors, then
`set_description` on the current bundle followed by building its per-field
conversion list through the type manager. -/
def pkt_T (s : ConnState) (input : List Nat) : Except PyErr (ConnState × List Nat) :=
  match readInt16E input with
  | .error e => .error e
  | .ok (nFields, r1) =>
    match readDescrs nFields.toNat r1 with
    | .error e => .error e
    | .ok (descr, rest) =>
      match s.result with
      | none => .error .attributeError
      | some l =>
        match l.getLast? with
        | none => .error .attributeError
        | some cur =>
          let cur1 := setDescription cur descr s.heap s.type_manager
          let cur2 := { cur1 with
            conversion := some (descr.map (fun d => getConversion s.heap s.type_manager d.oid)) }
          .ok ({ s with result := some (l.dropLast ++ [cur2]) }, rest)

theorem readSized_le {sz : Int} {l p r : List Nat} (h : readSized sz l = .ok (p, r)) :
    r.length ≤ l.length := by
  simp only [readSized] at h
  split at h
  · split at h
    · cases h; simp
    · cases h
  · cases h; simp

theorem readInt32E_le {l r : List Nat} {v : Int} (h : readInt32E l = .ok (v, r)) :
    r.length ≤ l.length := by
  match l with
  | b0 :: b1 :: b2 :: b3 :: rest =>
    simp only [readInt32E] at h
    cases h
    simp
    omega
  | [] => simp [readInt32E] at h
  | [b0] => simp [readInt32E] at h
  | [b0, b1] => simp [readInt32E] at h
  | [b0, b1, b2] => simp [readInt32E] at h

/-- The response loop of `_pkt_V` (Function call response): read sub-tags
until `0`; a `G` sub-tag carries an int32-length-prefixed function result. -/
def funcallLoop (acc : Option (List Nat)) (input : List Nat) :
    Except PyErr (Option (List Nat) × List Nat) :=
  match input with
  | [] => .error .operationalError
  | b :: rest =>
    if b = 48 then .ok (acc, rest)
    else if b = 71 then
      match h1 : readInt32E rest with
      | .error e => .error e
      | .ok (sz, r1) =>
        match h2 : readSized sz r1 with
        | .error e => .error e
        | .ok (payload, r2) => funcallLoop (some payload) r2
    else .error .interfaceError
termination_by input.length
decreasing_by
  have hle : r2.length ≤ r1.length := readSized_le h2
  have hle2 : r1.length ≤ rest.length := readInt32E_le h1
  simp
  omega

/-- Source `_pkt_V` (Function call response). -/
def pkt_V (s : ConnState) (input : List Nat) : Except PyErr (ConnState × List Nat) :=
  match funcallLoop none input with
  | .error e => .error e
  | .ok (fr, rest) => .ok ({ s with func_result := fr }, rest)

/-- Source `_pkt_Z` (Ready for Query): set the ready flag. -/
def pkt_Z (s : ConnState) (input : List Nat) : Except PyErr (ConnState × List Nat) :=
  .ok ({ s with ready := true }, input)

/-- The tag dispatch of `Connection.__read_response`: the class-dict lookup
of `_pkt_<tag>` selects the handler; an unknown tag is an `InterfaceError`. -/
def dispatchPkt (ext : Ext) (b : Nat) (s : ConnState) (rest : List Nat) :
    Except PyErr (ConnState × List Nat) :=
  match b with
  | 65 => pkt_A s rest
  | 66 => pkt_B s rest
  | 67 => pkt_C s rest
  | 68 => pkt_D s rest
  | 69 => pkt_E s rest
  | 71 => pkt_G s rest
  | 72 => pkt_H s rest
  | 73 => pkt_I s rest
  | 75 => pkt_K s rest
  | 78 => pkt_N s rest
  | 80 => pkt_P s rest
  | 82 => pkt_R ext s rest
  | 84 => pkt_T s rest
  | 86 => pkt_V s rest
  | 90 => pkt_Z s rest
  | _ => .error .interfaceError

/-- Source `Connection.__read_response`: read the one-byte tag (an empty buffer with
a closed backend is an `OperationalError`) and dispatch on it. -/
def read_response (ext : Ext) (s : ConnState) (input : List Nat) :
    Except PyErr (ConnState × List Nat) :=
  match input with
  | [] => .error .operationalError
  | b :: rest => dispatchPkt ext b s rest

/-- Iterate `__read_response` a bounded number of times (the
`while not self.__ready` loop runs it until the ready flag is set; any finite
prefix of that run is an instance of this iteration). -/
def runResponses (ext : Ext) : Nat → ConnState → List Nat →
    Except PyErr (ConnState × List Nat)
  | 0, s, input => .ok (s, input)
  | n + 1, s, input =>
    match read_response ext s input with
    | .error e => .error e
    | .ok (s1, r1) => runResponses ext n s1 r1

/-- The pre-loop part of `Connection._execute`: clear the ready flag, drop the
previous batch, append the initial empty bundle, and send the `Q` packet. -/
def execStart (s : ConnState) (cmd : List Nat) : ConnState :=
  let s1 := newResult { s with ready := false, result := none }
  { s1 with sent := s1.sent ++ [[81] ++ cmd ++ [0]] }

/-- The post-loop part of `Connection._execute`: strip the trailing bundle
with `[:-1]`, index the first remaining bundle with `[0]` (an empty list makes
that a raw `IndexError`), raise `DatabaseError` when that bundle's error
string is truthy, and otherwise return its pieces. -/
def extractResult (s : ConnState) :
    Except PyErr (Option (List (List Nat × TypeId)) × Option (List Row) × List (List Nat)) :=
  match s.result with
  | none => .error .typeError
  | some l =>
    match (l.dropLast)[0]? with
    | none => .error .indexError
    | some r =>
      match r.error with
      | some e => if e = [] then .ok (r.description, r.rows, r.messages)
                  else .error (.databaseError e)
      | none => .ok (r.description, r.rows, r.messages)

/-! ## Shared helper lemmas -/

theorem lookupA_insertA_self {κ α : Type} [DecidableEq κ] (l : List (κ × α)) (k : κ) (v : α) :
    lookupA (insertA l k v) k = some v := by
  induction l with
  | nil => simp [insertA, lookupA]
  | cons p rest ih =>
    obtain ⟨k0, v0⟩ := p
    by_cases h : k0 = k
    · simp [insertA, h, lookupA]
    · simp [insertA, h, lookupA, ih]

theorem heapGet_append_len (heap : Heap) (x : PgType) :
    heapGet (heap ++ [x]) heap.length = x := by
  induction heap with
  | nil => rfl
  | cons y t ih => simpa [heapGet, List.getD] using ih

theorem heapGet_append_lt (heap : Heap) (x : PgType) {addr : Nat} (h : addr < heap.length) :
    heapGet (heap ++ [x]) addr = heapGet heap addr := by
  simp [heapGet, List.getD, List.getElem?_append_left h]

theorem getLast?_cons_getD (a : α) (l : List α) :
    (a :: l).getLast? = some ((l.getLast?).getD a) := by
  induction l generalizing a with
  | nil => rfl
  | cons b t ih =>
    rw [List.getLast?_cons_cons, ih b]
    cases h : t.getLast? <;> simp [ih, h]

theorem eq_dropLast_append {l : List α} {a : α} (h : l.getLast? = some a) :
    l = l.dropLast ++ [a] := by
  induction l with
  | nil => cases h
  | cons x t ih =>
    cases t with
    | nil => simp at h; simp [h]
    | cons y u =>
      rw [List.getLast?_cons_cons] at h
      have := ih h
      calc x :: y :: u = x :: ((y :: u).dropLast ++ [a]) := by rw [← this]
        _ = (x :: y :: u).dropLast ++ [a] := by simp

/-! ## C7: totality of the OID → decoder lookup -/

/-- C7: for every OID, `get_conversion`/`get_type` are total functions (their
Lean types are not `Except`): when the OID index holds an entry they return
the registered descriptor (and its decoder); otherwise they return
`_DEFAULT_PGTYPE`, whose category is `'unknown'` and whose decoder is the
UTF-8 text decoder `_char_convert`. -/
theorem claim_C7_registry_lookup_total (heap : Heap) (tm : TypeManager) (oid : Int) :
    (∃ addr, lookupA tm.oid_map oid = some addr ∧
      getConversion heap tm oid = (heapGet heap addr).converter ∧
      getType heap tm oid = heapGet heap addr) ∨
    (lookupA tm.oid_map oid = none ∧
      getConversion heap tm oid = Converter.charConvert ∧
      getType heap tm oid = DEFAULT_PGTYPE ∧
      DEFAULT_PGTYPE.type_id = TypeId.unknownTag ∧
      DEFAULT_PGTYPE.converter = Converter.charConvert) := by
  cases h : lookupA tm.oid_map oid with
  | some addr => exact Or.inl ⟨addr, rfl, by simp [getConversion, getType, h]⟩
  | none => exact Or.inr ⟨rfl, by simp [getConversion, getType, h, DEFAULT_PGTYPE]⟩

/-! ## C8: the literal encoder -/

/-- Modelled from the spec: per-character escaping — a backslash or a single
quote is preceded by a backslash, all other characters stand alone. -/
def escSpec (c : Nat) : List Nat :=
  if c = 92 then [92, 92] else if c = 39 then [92, 39] else [c]

theorem replace1_cons (c : Nat) (r : List Nat) (x : Nat) (s : List Nat) :
    replace1 c r (x :: s) = (if x = c then r else [x]) ++ replace1 c r s := by
  simp [replace1]

theorem replace_escape (s : List Nat) :
    replace1 39 [92, 39] (replace1 92 [92, 92] s) = (s.map escSpec).flatten := by
  induction s with
  | nil => rfl
  | cons x t ih =>
    by_cases h92 : x = 92
    · subst h92
      simp [replace1_cons, escSpec, ih]
    · by_cases h39 : x = 39
      · subst h39
        simp [replace1_cons, escSpec, ih]
      · simp [replace1_cons, escSpec, h92, h39, ih]

/-- C8: with the default registrations, the literal encoder sends the null
host value to the literal `NULL`; wraps every string in single quotes with
every backslash and every single quote preceded by a backslash; and sends
every calendar date to `'YYYY-MM-DD'::date`. -/
theorem claim_C8_literal_encoder :
    python_to_sql DEFAULT_TYPE_MANAGER PyVal.pnone = PyVal.pstr nullLit ∧
    (∀ s : List Nat, python_to_sql DEFAULT_TYPE_MANAGER (PyVal.pstr s) =
      PyVal.pstr ([39] ++ (s.map escSpec).flatten ++ [39])) ∧
    (∀ y m d : Nat, python_to_sql DEFAULT_TYPE_MANAGER (PyVal.pdate y m d) =
      PyVal.pstr ([39] ++ pyDateStr y m d ++ [39, 58, 58, 100, 97, 116, 101])) := by
  have hnone : lookupA DEFAULT_TYPE_MANAGER.python_converters PyType.noneType = none := by decide
  have hstr : lookupA DEFAULT_TYPE_MANAGER.python_converters PyType.strType = none := by decide
  have hdate : lookupA DEFAULT_TYPE_MANAGER.python_converters PyType.dateType =
      some Encoder.dateEnc := by decide
  refine ⟨?_, ?_, ?_⟩
  · simp [python_to_sql, pyTypeOf, hnone]
  · intro s
    simp [python_to_sql, pyTypeOf, hstr, replace_escape]
  · intro y m d
    simp [python_to_sql, pyTypeOf, hdate, Encoder.runEnc]

/-! ## C2: clone isolation is only partial -/

/-- C2 counterexample: `'char'` is registered at heap address 0 by the
default registrations with no stored OID; after cloning the default manager
and performing one `register_oid` on the clone, the descriptor at address 0 —
still reachable from the default manager's name index — has its `oid` field
mutated to the new binding.  This falsifies the claim that no descriptor
reachable from the original manager (including its stored oid field) is
mutated by operations on the clone. -/
theorem claim_C2_counterexample :
    lookupA DEFAULT_TYPE_MANAGER.pg_types nmChar = some 0 ∧
    (heapGet defaultHeap 0).oid = none ∧
    (heapGet (register_oid defaultHeap (cloneTM DEFAULT_TYPE_MANAGER) 42 nmChar).1 0).oid
      = some 42 := by decide

/-- C2 (amended): an OID binding on the per-connection clone never changes
the name, the decoder, or the category of any existing descriptor — only a
shared descriptor's stored `oid` field may be overwritten, namely the one
registered under the bound name. -/
theorem claim_C2_amended (heap : Heap) (tm : TypeManager) (oid : Int) (name : List Nat)
    (addr : Nat) (h : addr < heap.length) :
    ((heapGet (register_oid heap (cloneTM tm) oid name).1 addr).name
        = (heapGet heap addr).name ∧
      (heapGet (register_oid heap (cloneTM tm) oid name).1 addr).converter
        = (heapGet heap addr).converter ∧
      (heapGet (register_oid heap (cloneTM tm) oid name).1 addr).type_id
        = (heapGet heap addr).type_id) ∧
    (∀ a, lookupA tm.pg_types name = some a → a < heap.length →
      heapGet (register_oid heap (cloneTM tm) oid name).1 a
        = { heapGet heap a with oid := some oid }) := by
  have hclone : (cloneTM tm).pg_types = tm.pg_types := rfl
  constructor
  · cases hl : lookupA (cloneTM tm).pg_types name with
    | none =>
      simp only [register_oid, hl]
      rw [heapGet_append_lt heap _ h]
      exact ⟨rfl, rfl, rfl⟩
    | some a =>
      simp only [register_oid, hl]
      by_cases hae : addr = a
      · subst hae
        have : (heap.set addr { heapGet heap addr with oid := some oid }).getD addr DEFAULT_PGTYPE
            = { heapGet heap addr with oid := some oid } := by
          simp [List.getD, List.getElem?_set_self, h]
        simp only [heapGet] at this ⊢
        rw [this]
        exact ⟨rfl, rfl, rfl⟩
      · have : (heap.set a { heapGet heap a with oid := some oid }).getD addr DEFAULT_PGTYPE
            = heap.getD addr DEFAULT_PGTYPE := by
          simp [List.getD, List.getElem?_set_ne (fun hc => hae hc.symm)]
        simp only [heapGet] at this ⊢
        rw [this]
        exact ⟨rfl, rfl, rfl⟩
  · intro a ha halt
    rw [← hclone] at ha
    simp only [register_oid, ha, heapGet]
    simp [List.getD, List.getElem?_set_self, halt]

/-! ## C3: OID-index rewriting happens only on the first re-registration -/

/-- The empty type manager (`_TypeManager.__init__`). -/
def emptyTM : TypeManager := { pg_types := [], oid_map := [], python_converters := [] }

/-- The PostgreSQL type name `foo` used in the C3 scenario. -/
def nmFoo : List Nat := [102, 111, 111]

/-- C3 counterexample: after `register_oid(42, 'foo')` and a first
`register_pgsql('foo', …)` (which does rewrite the OID index), a *second*
`register_pgsql('foo', …)` installs its new descriptor at address 2 but
leaves the OID index pointing at address 1 — the previous descriptor, whose
decoder differs from the newly installed one.  This falsifies the claim that
every such re-registration rewrites the OID index. -/
theorem claim_C3_counterexample :
    (let s1 := register_oid [] emptyTM 42 nmFoo
     let s2 := register_pgsql s1.1 s1.2 [nmFoo] Converter.intConv TypeId.NUMBER
     let s3 := register_pgsql s2.1 s2.2 [nmFoo] Converter.boolConvert TypeId.boolTag
     lookupA s3.2.pg_types nmFoo = some 2 ∧
     lookupA s3.2.oid_map 42 = some 1 ∧
     (heapGet s3.1 1).converter = Converter.intConv ∧
     (heapGet s3.1 2).converter = Converter.boolConvert ∧
     Converter.intConv ≠ Converter.boolConvert) := by decide

/-- C3 (amended): `register_pgsql` under an already-known name rewrites the
OID index exactly when the descriptor currently under that name carries a
stored OID (as after a bootstrap `register_oid`); the newly installed
descriptor carries no stored OID, so a further re-registration without an
intervening `register_oid` leaves the OID index unchanged. -/
theorem claim_C3_amended (heap : Heap) (tm : TypeManager) (name : List Nat)
    (conv : Converter) (tid : TypeId) (a : Nat)
    (h : lookupA tm.pg_types name = some a) :
    (∀ o, (heapGet heap a).oid = some o →
      lookupA (register_pgsql heap tm [name] conv tid).2.oid_map o = some heap.length ∧
      heapGet (register_pgsql heap tm [name] conv tid).1 heap.length
        = { name := name, converter := conv, type_id := tid, oid := none } ∧
      lookupA (register_pgsql heap tm [name] conv tid).2.pg_types name
        = some heap.length) ∧
    ((heapGet heap a).oid = none →
      (register_pgsql heap tm [name] conv tid).2.oid_map = tm.oid_map) := by
  constructor
  · intro o ho
    simp only [register_pgsql, List.foldl_cons, List.foldl_nil, register_pgsql_step, h, ho]
    exact ⟨lookupA_insertA_self _ _ _, heapGet_append_len _ _, lookupA_insertA_self _ _ _⟩
  · intro ho
    simp only [register_pgsql, List.foldl_cons, List.foldl_nil, register_pgsql_step, h, ho]

/-! ## C4: a NoticeResponse during the startup loop -/

/-- Concrete stand-in for the external authentication primitives (irrelevant
to the packets exercised here). -/
def ext0 : Ext := { crypt := fun _ _ => [], md5hex := fun _ => [] }

/-- The `Connection` attribute state set up by `Connection.__init__` before
the startup packet loop: no current batch (`__result = __current_result =
None`), not ready, not authenticated, and a type manager cloned from the
default. -/
def startupState : ConnState :=
  { heap := defaultHeap, type_manager := cloneTM DEFAULT_TYPE_MANAGER,
    authenticated := false, ready := false, result := none, notify_queue := [],
    func_result := none, backend_pid := none, backend_key := none, passwd := [],
    userid := [], stdin := [], stdout := [], sent := [] }

/-- C4 (code bug): in the startup-loop state, where no current result bundle
exists, processing a NoticeResponse packet (`N`, here with notice text `hi`)
does *not* complete — the unguarded `self.__current_result.messages.append`
dereferences `None` and raises `AttributeError`, contradicting the spec's
account of the startup loop (`N` appends a notice), and contrasting with the
`_pkt_E` handler, which does guard against a missing current result. -/
theorem claim_C4_notice_crash :
    startupState.result = none ∧
    read_response ext0 startupState [78, 104, 105, 0] = .error PyErr.attributeError := by
  exact ⟨rfl, rfl⟩

/-! ## C9: the CopyIn trampoline -/

/-- Modelled from the spec: lines transmitted are exactly those before
end-of-input (an empty read) or before the terminator line. -/
def keepLine (s : List Nat) : Bool := decide (s ≠ [] ∧ s ≠ [92, 46, 10])

theorem copyInLoop_spec (lines : List (List Nat)) (last : Option (List Nat)) :
    (copyInLoop lines last).1 = lines.takeWhile keepLine ∧
    (copyInLoop lines last).2.1 =
      (match (lines.takeWhile keepLine).getLast? with
       | some l => some l
       | none => last) := by
  induction lines generalizing last with
  | nil => simp [copyInLoop]
  | cons s rest ih =>
    by_cases h : s = [] ∨ s = [92, 46, 10]
    · have hk : keepLine s = false := by simp [keepLine]; tauto
      simp [copyInLoop, h, List.takeWhile_cons, hk]
    · have hk : keepLine s = true := by simp [keepLine]; tauto
      obtain ⟨ih1, ih2⟩ := ih (some s)
      simp only [copyInLoop, if_neg h, List.takeWhile_cons, hk, if_true]
      refine ⟨by simp [ih1], ?_⟩
      rw [ih2, getLast?_cons_getD]
      cases hL : (rest.takeWhile keepLine).getLast? <;> simp [hL]

/-- C9: everything `_pkt_G` sends, in order: every input line before
end-of-input or before a backslash-dot-newline line is transmitted verbatim;
then, if at least one line was transmitted and the last transmitted line does
not end in a newline, a single newline; and in every case the terminator line
backslash-dot-newline is sent last. -/
theorem claim_C9_copy_in (stdin : List (List Nat)) :
    pkt_GSends stdin =
      stdin.takeWhile keepLine ++
      (match (stdin.takeWhile keepLine).getLast? with
       | some l => if l.getLast? ≠ some 10 then [[10]] else []
       | none => []) ++
      [[92, 46, 10]] := by
  obtain ⟨h1, h2⟩ := copyInLoop_spec stdin none
  simp only [pkt_GSends, h1, h2]
  cases hL : (stdin.takeWhile keepLine).getLast? with
  | none => simp
  | some l =>
    have hmem : l ∈ stdin.takeWhile keepLine := by
      obtain ⟨h0, heq⟩ := List.mem_getLast?_eq_getLast (Option.mem_def.mpr hL)
      rw [heq]
      exact List.getLast_mem h0
    have hne : l ≠ [] := by
      have := List.mem_takeWhile_imp hmem
      simp [keepLine] at this
      exact this.1
    simp only []
    congr 1
    congr 1
    by_cases h10 : l.getLast? = some 10 <;> simp [h10, hne]

/-! ## C1: row framing — the shifting-mask loop equals the positional
NULL-bitmap reading described by the spec -/

theorem nullBits_testBit (bs : List Nat) (acc p : Nat) (hb : ∀ b ∈ bs, b < 256) :
    (bs.foldl (fun a b => (a <<< 8) ||| b) acc).testBit p =
      if p < 8 * bs.length then (bs.getD (bs.length - 1 - p / 8) 0).testBit (p % 8)
      else acc.testBit (p - 8 * bs.length) := by
  induction bs generalizing acc with
  | nil => simp
  | cons b t ih =>
    have hb' : ∀ x ∈ t, x < 256 := fun x hx => hb x (List.mem_cons_of_mem _ hx)
    have hbb : b < 256 := hb b (List.mem_cons_self b t)
    rw [List.foldl_cons, ih ((acc <<< 8) ||| b) hb']
    by_cases h1 : p < 8 * t.length
    · rw [if_pos h1, if_pos (by simp; omega)]
      have hidx : (b :: t).length - 1 - p / 8 = (t.length - 1 - p / 8) + 1 := by
        simp
        omega
      rw [hidx, List.getD_cons_succ]
    · by_cases h2 : p < 8 * (b :: t).length
      · rw [if_neg h1, if_pos h2]
        simp only [List.length_cons] at h2
        rw [Nat.testBit_lor, Nat.testBit_shiftLeft]
        have hidx : (b :: t).length - 1 - p / 8 = 0 := by simp; omega
        rw [hidx, List.getD_cons_zero]
        have hge : ¬ (p - 8 * t.length ≥ 8) := by omega
        have hmod : p % 8 = p - 8 * t.length := by omega
        simp [hge, hmod]
      · rw [if_neg h1, if_neg h2]
        simp only [List.length_cons] at h2
        rw [Nat.testBit_lor, Nat.testBit_shiftLeft]
        have h8 : (p - 8 * t.length) ≥ 8 := by omega
        have hbf : b.testBit (p - 8 * t.length) = false :=
          Nat.testBit_eq_false_of_lt (lt_of_lt_of_le hbb (by
            calc (256 : Nat) = 2 ^ 8 := by norm_num
              _ ≤ 2 ^ (p - 8 * t.length) := Nat.pow_le_pow_right (by norm_num) h8))
        have harith : p - 8 * t.length - 8 = p - 8 * (t.length + 1) := by omega
        simp [hbf, h8, harith]

theorem and_pow_ne_iff (x j : Nat) : (x &&& 2 ^ j ≠ 0) ↔ x.testBit j = true := by
  rw [Nat.and_two_pow]
  cases h : x.testBit j
  · simp
  · simp [(Nat.two_pow_pos j).ne']

theorem readFields_eq_specFields (ascii : Bool) (conv : Option (List Converter))
    (bm : List Nat) (n : Nat) (hb : ∀ b ∈ bm, b < 256) (hn : n ≤ 8 * bm.length) :
    ∀ count idx mask input, idx + count ≤ n →
      (count ≠ 0 → mask = 2 ^ (8 * bm.length - 1 - idx)) →
      readFields ascii conv (nullBitsOf bm) count idx mask input =
        specFields ascii conv bm count idx input := by
  intro count
  induction count with
  | zero => intro idx mask input _ _; rfl
  | succ c ih =>
    intro idx mask input hle hmask
    have hm := hmask (by omega)
    have hidxlt : idx < 8 * bm.length := by omega
    have hcond : (nullBitsOf bm &&& mask ≠ 0) ↔ (specPresent bm idx = true) := by
      rw [hm, and_pow_ne_iff]
      have hbit : (nullBitsOf bm).testBit (8 * bm.length - 1 - idx) = specPresent bm idx := by
        show (bm.foldl (fun a b => (a <<< 8) ||| b) 0).testBit _ = _
        rw [nullBits_testBit bm 0 _ hb, if_pos (by omega)]
        have e1 : bm.length - 1 - (8 * bm.length - 1 - idx) / 8 = idx / 8 := by omega
        have e2 : (8 * bm.length - 1 - idx) % 8 = 7 - idx % 8 := by omega
        rw [e1, e2]
        rfl
      rw [hbit]
    have hmaskrec : c ≠ 0 → mask >>> 1 = 2 ^ (8 * bm.length - 1 - (idx + 1)) := by
      intro hc0
      have hidx2 : idx + 2 ≤ 8 * bm.length := by omega
      rw [hm, Nat.shiftRight_eq_div_pow]
      have e3 : 8 * bm.length - 1 - idx = (8 * bm.length - 1 - (idx + 1)) + 1 := by omega
      rw [e3, pow_succ, pow_one]
      exact Nat.mul_div_cancel _ (by norm_num)
    simp only [readFields, specFields]
    by_cases hc : specPresent bm idx = true
    · rw [if_pos (hcond.mpr hc), if_pos hc]
      cases hI : readInt32E input with
      | error e => rfl
      | ok q =>
        obtain ⟨sz, input1⟩ := q
        simp only []
        cases hS : readSized (if ascii then sz - 4 else sz) input1 with
        | error e => rfl
        | ok q2 =>
          obtain ⟨payload, input2⟩ := q2
          simp only []
          cases hC : convAt conv idx with
          | error e => rfl
          | ok cnv =>
            simp only []
            cases hR : cnv.run payload with
            | error e => rfl
            | ok v =>
              simp only []
              rw [ih (idx + 1) (mask >>> 1) input2 (by omega) hmaskrec]
    · rw [if_neg (fun hne => hc (hcond.mp hne)), if_neg hc]
      rw [ih (idx + 1) (mask >>> 1) input (by omega) hmaskrec]

/-- C1: for a bundle whose field description declares `n` fields (so
`set_description` stored `null_byte_count = ceil(n/8)`), `__read_row` decodes
exactly as the spec states: a NULL bitmap of `ceil(n/8)` bytes with the
most-significant bit of the first byte governing field 0; a set bit means a
4-byte big-endian length (minus 4 for AsciiRow, taken directly for
BinaryRow), that many payload bytes, and the per-field decoder; a clear bit
consumes nothing and yields a null value — and the decoded row is appended to
the bundle's row list. -/
theorem claim_C1_row_framing (ascii : Bool) (rs : MResultSet) (input : List Nat)
    (rows0 : List Row) (hnbc : rs.null_byte_count = (rs.num_fields + 7) / 8)
    (hb : ∀ b ∈ input, b < 256) (hr : rs.rows = some rows0) :
    readRow ascii rs input =
      (specRowDecode ascii rs.num_fields rs.conversion input).map
        (fun p => ({ rs with rows := some (rows0 ++ [p.1]) }, p.2)) := by
  simp only [readRow, specRowDecode, hnbc]
  cases hB : readBytesE ((rs.num_fields + 7) / 8) input with
  | error e => simp [Except.map]
  | ok p =>
    obtain ⟨bm, input1⟩ := p
    have hBk : (rs.num_fields + 7) / 8 ≤ input.length ∧
        bm = input.take ((rs.num_fields + 7) / 8) := by
      simp only [readBytesE] at hB
      split at hB
      · cases hB; exact ⟨by assumption, rfl⟩
      · cases hB
    obtain ⟨hk_le, hbm⟩ := hBk
    have hlen : bm.length = (rs.num_fields + 7) / 8 := by
      rw [hbm, List.length_take]
      omega
    have hb' : ∀ b ∈ bm, b < 256 := fun b hbmem =>
      hb b (List.take_subset _ _ (hbm ▸ hbmem))
    have hn8 : rs.num_fields ≤ 8 * bm.length := by rw [hlen]; omega
    have hmask : rs.num_fields ≠ 0 →
        (if (rs.num_fields + 7) / 8 = 0 then 128
         else 128 <<< (((rs.num_fields + 7) / 8 - 1) * 8)) =
          2 ^ (8 * bm.length - 1 - 0) := by
      intro hn0
      rw [if_neg (by omega), Nat.shiftLeft_eq, hlen]
      have h128 : (128 : Nat) = 2 ^ 7 := by norm_num
      rw [h128, ← pow_add]
      congr 1
      omega
    simp only []
    rw [readFields_eq_specFields ascii rs.conversion bm rs.num_fields hb' hn8
        rs.num_fields 0 _ input1 (by omega) hmask]
    cases hF : specFields ascii rs.conversion bm rs.num_fields 0 input1 with
    | error e => simp [Except.map]
    | ok q =>
      obtain ⟨row, rest⟩ := q
      simp [Except.map, hr]

/-! ## Per-handler effect lemmas on the batch list -/

theorem pkt_A_result {s s2 : ConnState} {input rest : List Nat}
    (h : pkt_A s input = .ok (s2, rest)) : s2.result = s.result := by
  simp only [pkt_A] at h
  repeat' split at h
  all_goals first | exact Except.noConfusion h | (cases h; rfl)

theorem pkt_K_result {s s2 : ConnState} {input rest : List Nat}
    (h : pkt_K s input = .ok (s2, rest)) : s2.result = s.result := by
  simp only [pkt_K] at h
  repeat' split at h
  all_goals first | exact Except.noConfusion h | (cases h; rfl)

theorem pkt_P_result {s s2 : ConnState} {input rest : List Nat}
    (h : pkt_P s input = .ok (s2, rest)) : s2.result = s.result := by
  simp only [pkt_P] at h
  repeat' split at h
  all_goals first | exact Except.noConfusion h | (cases h; rfl)

theorem pkt_I_result {s s2 : ConnState} {input rest : List Nat}
    (h : pkt_I s input = .ok (s2, rest)) : s2.result = s.result := by
  simp only [pkt_I] at h
  repeat' split at h
  all_goals first | exact Except.noConfusion h | (cases h; rfl)

theorem pkt_Z_result {s s2 : ConnState} {input rest : List Nat}
    (h : pkt_Z s input = .ok (s2, rest)) : s2.result = s.result := by
  simp only [pkt_Z] at h
  cases h
  rfl

theorem pkt_G_result {s s2 : ConnState} {input rest : List Nat}
    (h : pkt_G s input = .ok (s2, rest)) : s2.result = s.result := by
  simp only [pkt_G] at h
  cases h
  rfl

theorem pkt_H_result {s s2 : ConnState} {input rest : List Nat}
    (h : pkt_H s input = .ok (s2, rest)) : s2.result = s.result := by
  simp only [pkt_H] at h
  repeat' split at h
  all_goals first | exact Except.noConfusion h | (cases h; rfl)

theorem pkt_V_result {s s2 : ConnState} {input rest : List Nat}
    (h : pkt_V s input = .ok (s2, rest)) : s2.result = s.result := by
  simp only [pkt_V] at h
  repeat' split at h
  all_goals first | exact Except.noConfusion h | (cases h; rfl)

theorem pkt_R_result {ext : Ext} {s s2 : ConnState} {input rest : List Nat}
    (h : pkt_R ext s input = .ok (s2, rest)) : s2.result = s.result := by
  simp only [pkt_R] at h
  repeat' split at h
  all_goals first | exact Except.noConfusion h | (cases h; rfl)

theorem readFields_length (ascii : Bool) (conv : Option (List Converter)) (nullBits : Nat) :
    ∀ count idx mask input row rest,
      readFields ascii conv nullBits count idx mask input = .ok (row, rest) →
      row.length = count := by
  intro count
  induction count with
  | zero =>
    intro idx mask input row rest h
    simp only [readFields] at h
    cases h
    rfl
  | succ c ih =>
    intro idx mask input row rest h
    simp only [readFields] at h
    split at h
    · repeat' split at h
      all_goals try exact Except.noConfusion h
      cases h
      rename_i hrec
      simp [ih _ _ _ _ _ hrec]
    · split at h
      · exact Except.noConfusion h
      · cases h
        rename_i hrec
        simp [ih _ _ _ _ _ hrec]

theorem readRow_shape {ascii : Bool} {cur cur2 : MResultSet} {input rest : List Nat}
    (h : readRow ascii cur input = .ok (cur2, rest)) :
    ∃ rows0 row, cur.rows = some rows0 ∧ row.length = cur.num_fields ∧
      cur2 = { cur with rows := some (rows0 ++ [row]) } := by
  unfold readRow at h
  cases hB : readBytesE cur.null_byte_count input with
  | error e => rw [hB] at h; exact Except.noConfusion h
  | ok p =>
    rw [hB] at h
    obtain ⟨bm, input1⟩ := p
    simp only [] at h
    cases hF : readFields ascii cur.conversion (nullBitsOf bm) cur.num_fields 0
        (if cur.null_byte_count = 0 then 128 else 128 <<< ((cur.null_byte_count - 1) * 8))
        input1 with
    | error e => rw [hF] at h; exact Except.noConfusion h
    | ok q =>
      rw [hF] at h
      obtain ⟨row, rest0⟩ := q
      simp only [] at h
      cases hR : cur.rows with
      | none => rw [hR] at h; exact Except.noConfusion h
      | some rows0 =>
        rw [hR] at h
        cases h
        exact ⟨rows0, row, rfl, readFields_length _ _ _ _ _ _ _ _ _ hF, rfl⟩

theorem applyReadRow_shape {ascii : Bool} {s s2 : ConnState} {input rest : List Nat}
    (h : applyReadRow ascii s input = .ok (s2, rest)) :
    ∃ l0 cur rows0 row, s.result = some (l0 ++ [cur]) ∧ cur.rows = some rows0 ∧
      row.length = cur.num_fields ∧
      s2.result = some (l0 ++ [{ cur with rows := some (rows0 ++ [row]) }]) := by
  unfold applyReadRow at h
  cases hres : s.result with
  | none => rw [hres] at h; exact Except.noConfusion h
  | some l =>
    rw [hres] at h
    simp only [] at h
    cases hlast : l.getLast? with
    | none => rw [hlast] at h; exact Except.noConfusion h
    | some cur =>
      rw [hlast] at h
      simp only [] at h
      cases hrow : readRow ascii cur input with
      | error e => rw [hrow] at h; exact Except.noConfusion h
      | ok p =>
        rw [hrow] at h
        simp only [] at h
        obtain ⟨cur2, rest0⟩ := p
        cases h
        obtain ⟨rows0, row, hrows, hlen, hcur2⟩ := readRow_shape hrow
        subst hcur2
        refine ⟨l.dropLast, cur, rows0, row, ?_, hrows, hlen, rfl⟩
        exact congrArg some (eq_dropLast_append hlast)

theorem pkt_C_shape {s s2 : ConnState} {input rest : List Nat}
    (h : pkt_C s input = .ok (s2, rest)) :
    ∃ l0 cur tag, s.result = some (l0 ++ [cur]) ∧
      s2.result = some (l0 ++ [{ cur with completed := some tag }, freshRS]) := by
  unfold pkt_C at h
  cases hstr : readStringE 0 input with
  | error e => rw [hstr] at h; exact Except.noConfusion h
  | ok p =>
    rw [hstr] at h
    obtain ⟨tag, rest0⟩ := p
    simp only [] at h
    cases hres : s.result with
    | none => rw [hres] at h; exact Except.noConfusion h
    | some l =>
      rw [hres] at h
      simp only [] at h
      cases hlast : l.getLast? with
      | none => rw [hlast] at h; exact Except.noConfusion h
      | some cur =>
        rw [hlast] at h
        simp only [] at h
        cases h
        refine ⟨l.dropLast, cur, tag, ?_, ?_⟩
        · exact congrArg some (eq_dropLast_append hlast)
        · simp [newResult]

theorem pkt_E_shape {s s2 : ConnState} {input rest : List Nat}
    (h : pkt_E s input = .ok (s2, rest)) :
    ∃ l0 cur msg, s.result = some (l0 ++ [cur]) ∧
      s2.result = some (l0 ++ [{ cur with error := some msg }, freshRS]) := by
  unfold pkt_E at h
  cases hres : s.result with
  | none =>
    rw [hres] at h
    simp only [] at h
    cases hstr : readStringE 0 input with
    | error e => rw [hstr] at h; exact Except.noConfusion h
    | ok p => rw [hstr] at h; obtain ⟨msg, rest0⟩ := p; exact Except.noConfusion h
  | some l =>
    rw [hres] at h
    simp only [] at h
    cases hlast : l.getLast? with
    | none =>
      rw [hlast] at h
      simp only [] at h
      cases hstr : readStringE 0 input with
      | error e => rw [hstr] at h; exact Except.noConfusion h
      | ok p => rw [hstr] at h; obtain ⟨msg, rest0⟩ := p; exact Except.noConfusion h
    | some cur =>
      rw [hlast] at h
      simp only [] at h
      cases hstr : readStringE 0 input with
      | error e => rw [hstr] at h; exact Except.noConfusion h
      | ok p =>
        rw [hstr] at h
        obtain ⟨msg, rest0⟩ := p
        simp only [] at h
        cases h
        refine ⟨l.dropLast, cur, msg, ?_, ?_⟩
        · exact congrArg some (eq_dropLast_append hlast)
        · simp [newResult]

theorem pkt_N_shape {s s2 : ConnState} {input rest : List Nat}
    (h : pkt_N s input = .ok (s2, rest)) :
    ∃ l0 cur n, s.result = some (l0 ++ [cur]) ∧
      s2.result = some (l0 ++ [{ cur with messages := cur.messages ++ [n] }]) := by
  unfold pkt_N at h
  cases hstr : readStringE 0 input with
  | error e => rw [hstr] at h; exact Except.noConfusion h
  | ok p =>
    rw [hstr] at h
    obtain ⟨n, rest0⟩ := p
    simp only [] at h
    cases hres : s.result with
    | none => rw [hres] at h; exact Except.noConfusion h
    | some l =>
      rw [hres] at h
      simp only [] at h
      cases hlast : l.getLast? with
      | none => rw [hlast] at h; exact Except.noConfusion h
      | some cur =>
        rw [hlast] at h
        simp only [] at h
        cases h
        refine ⟨l.dropLast, cur, n, ?_, rfl⟩
        exact congrArg some (eq_dropLast_append hlast)

theorem pkt_T_shape {s s2 : ConnState} {input rest : List Nat}
    (h : pkt_T s input = .ok (s2, rest)) :
    ∃ l0 cur cur2, s.result = some (l0 ++ [cur]) ∧
      s2.result = some (l0 ++ [cur2]) ∧
      cur2.rows = some [] ∧ cur2.error = cur.error ∧ cur2.completed = cur.completed ∧
      cur2.num_fields = (cur2.conversion.getD []).length := by
  unfold pkt_T at h
  cases h16 : readInt16E input with
  | error e => rw [h16] at h; exact Except.noConfusion h
  | ok p =>
    rw [h16] at h
    obtain ⟨nFields, r1⟩ := p
    simp only [] at h
    cases hD : readDescrs nFields.toNat r1 with
    | error e => rw [hD] at h; exact Except.noConfusion h
    | ok q =>
      rw [hD] at h
      obtain ⟨descr, rest0⟩ := q
      simp only [] at h
      cases hres : s.result with
      | none => rw [hres] at h; exact Except.noConfusion h
      | some l =>
        rw [hres] at h
        simp only [] at h
        cases hlast : l.getLast? with
        | none => rw [hlast] at h; exact Except.noConfusion h
        | some cur =>
          rw [hlast] at h
          simp only [] at h
          cases h
          refine ⟨l.dropLast, cur, _, ?_, rfl, ?_, ?_, ?_, ?_⟩
          · exact congrArg some (eq_dropLast_append hlast)
          · simp [setDescription]
          · simp [setDescription]
          · simp [setDescription]
          · simp [setDescription]

/-! ## Batch invariants (C5, C6, C10) -/

/-- No result bundle has both its error and its completion tag set. -/
def noBothSet (s : ConnState) : Prop :=
  ∀ l, s.result = some l → ∀ rs ∈ l, rs.error = none ∨ rs.completed = none

/-- The current (last) bundle has neither error nor completion tag set. -/
def lastFresh (s : ConnState) : Prop :=
  ∀ l, s.result = some l → ∀ rs, l.getLast? = some rs →
    rs.error = none ∧ rs.completed = none

/-- Every decoded row of every bundle has as many values as the bundle's
field count. -/
def rowsMatch (s : ConnState) : Prop :=
  ∀ l, s.result = some l → ∀ rs ∈ l, ∀ row ∈ rs.rows.getD [], row.length = rs.num_fields

theorem getLast?_append_pair (l0 : List α) (x y : α) : (l0 ++ [x, y]).getLast? = some y := by
  have he : l0 ++ [x, y] = (l0 ++ [x]) ++ [y] := by simp
  rw [he, List.getLast?_concat]

theorem noBothSet_of_eq {s s2 : ConnState} (he : s2.result = s.result) (h1 : noBothSet s) :
    noBothSet s2 := fun l hl => h1 l (he ▸ hl)

theorem lastFresh_of_eq {s s2 : ConnState} (he : s2.result = s.result) (h2 : lastFresh s) :
    lastFresh s2 := fun l hl => h2 l (he ▸ hl)

theorem rowsMatch_of_eq {s s2 : ConnState} (he : s2.result = s.result) (h1 : rowsMatch s) :
    rowsMatch s2 := fun l hl => h1 l (he ▸ hl)

theorem step_C5_dispatch {ext : Ext} {b : Nat} {s s2 : ConnState} {rest0 rest : List Nat}
    (h : dispatchPkt ext b s rest0 = .ok (s2, rest))
    (h1 : noBothSet s) (h2 : lastFresh s) : noBothSet s2 ∧ lastFresh s2 := by
  unfold dispatchPkt at h
  · split at h
    case _ => -- A
      exact ⟨noBothSet_of_eq (pkt_A_result h) h1, lastFresh_of_eq (pkt_A_result h) h2⟩
    case _ => -- B
      obtain ⟨l0, cur, rows0, row, hres, hrows, hlen, hres2⟩ := applyReadRow_shape h
      have hcur := h1 _ hres cur (by simp)
      refine ⟨fun l hl rs hmem => ?_, fun l hl rs hlast => ?_⟩
      · rw [hl] at hres2
        cases hres2
        rcases List.mem_append.mp hmem with hm | hm
        · exact h1 _ hres rs (List.mem_append.mpr (Or.inl hm))
        · simp at hm
          subst hm
          exact hcur
      · rw [hl] at hres2
        cases hres2
        rw [List.getLast?_concat] at hlast
        cases hlast
        exact h2 _ hres cur (List.getLast?_concat _)
    case _ => -- C
      obtain ⟨l0, cur, tag, hres, hres2⟩ := pkt_C_shape h
      have hcf := h2 _ hres cur (List.getLast?_concat _)
      refine ⟨fun l hl rs hmem => ?_, fun l hl rs hlast => ?_⟩
      · rw [hl] at hres2
        cases hres2
        rcases List.mem_append.mp hmem with hm | hm
        · exact h1 _ hres rs (List.mem_append.mpr (Or.inl hm))
        · simp at hm
          rcases hm with hm | hm <;> subst hm
          · exact Or.inl hcf.1
          · exact Or.inl rfl
      · rw [hl] at hres2
        cases hres2
        rw [getLast?_append_pair] at hlast
        cases hlast
        exact ⟨rfl, rfl⟩
    case _ => -- D
      obtain ⟨l0, cur, rows0, row, hres, hrows, hlen, hres2⟩ := applyReadRow_shape h
      have hcur := h1 _ hres cur (by simp)
      refine ⟨fun l hl rs hmem => ?_, fun l hl rs hlast => ?_⟩
      · rw [hl] at hres2
        cases hres2
        rcases List.mem_append.mp hmem with hm | hm
        · exact h1 _ hres rs (List.mem_append.mpr (Or.inl hm))
        · simp at hm
          subst hm
          exact hcur
      · rw [hl] at hres2
        cases hres2
        rw [List.getLast?_concat] at hlast
        cases hlast
        exact h2 _ hres cur (List.getLast?_concat _)
    case _ => -- E
      obtain ⟨l0, cur, msg, hres, hres2⟩ := pkt_E_shape h
      have hcf := h2 _ hres cur (List.getLast?_concat _)
      refine ⟨fun l hl rs hmem => ?_, fun l hl rs hlast => ?_⟩
      · rw [hl] at hres2
        cases hres2
        rcases List.mem_append.mp hmem with hm | hm
        · exact h1 _ hres rs (List.mem_append.mpr (Or.inl hm))
        · simp at hm
          rcases hm with hm | hm <;> subst hm
          · exact Or.inr hcf.2
          · exact Or.inl rfl
      · rw [hl] at hres2
        cases hres2
        rw [getLast?_append_pair] at hlast
        cases hlast
        exact ⟨rfl, rfl⟩
    case _ => -- G
      exact ⟨noBothSet_of_eq (pkt_G_result h) h1, lastFresh_of_eq (pkt_G_result h) h2⟩
    case _ => -- H
      exact ⟨noBothSet_of_eq (pkt_H_result h) h1, lastFresh_of_eq (pkt_H_result h) h2⟩
    case _ => -- I
      exact ⟨noBothSet_of_eq (pkt_I_result h) h1, lastFresh_of_eq (pkt_I_result h) h2⟩
    case _ => -- K
      exact ⟨noBothSet_of_eq (pkt_K_result h) h1, lastFresh_of_eq (pkt_K_result h) h2⟩
    case _ => -- N
      obtain ⟨l0, cur, n, hres, hres2⟩ := pkt_N_shape h
      have hcur := h1 _ hres cur (by simp)
      have hcf := h2 _ hres cur (List.getLast?_concat _)
      refine ⟨fun l hl rs hmem => ?_, fun l hl rs hlast => ?_⟩
      · rw [hl] at hres2
        cases hres2
        rcases List.mem_append.mp hmem with hm | hm
        · exact h1 _ hres rs (List.mem_append.mpr (Or.inl hm))
        · simp at hm
          subst hm
          exact hcur
      · rw [hl] at hres2
        cases hres2
        rw [List.getLast?_concat] at hlast
        cases hlast
        exact hcf
    case _ => -- P
      exact ⟨noBothSet_of_eq (pkt_P_result h) h1, lastFresh_of_eq (pkt_P_result h) h2⟩
    case _ => -- R
      exact ⟨noBothSet_of_eq (pkt_R_result h) h1, lastFresh_of_eq (pkt_R_result h) h2⟩
    case _ => -- T
      obtain ⟨l0, cur, cur2, hres, hres2, hrows, herr, hcomp, hnf⟩ := pkt_T_shape h
      have hcur := h1 _ hres cur (by simp)
      have hcf := h2 _ hres cur (List.getLast?_concat _)
      refine ⟨fun l hl rs hmem => ?_, fun l hl rs hlast => ?_⟩
      · rw [hl] at hres2
        cases hres2
        rcases List.mem_append.mp hmem with hm | hm
        · exact h1 _ hres rs (List.mem_append.mpr (Or.inl hm))
        · simp at hm
          subst hm
          rw [herr, hcomp]
          exact hcur
      · rw [hl] at hres2
        cases hres2
        rw [List.getLast?_concat] at hlast
        cases hlast
        rw [herr, hcomp]
        exact hcf
    case _ => -- V
      exact ⟨noBothSet_of_eq (pkt_V_result h) h1, lastFresh_of_eq (pkt_V_result h) h2⟩
    case _ => -- Z
      exact ⟨noBothSet_of_eq (pkt_Z_result h) h1, lastFresh_of_eq (pkt_Z_result h) h2⟩
    case _ => -- unknown tag
      exact Except.noConfusion h

theorem step_C5 {ext : Ext} {s s2 : ConnState} {input rest : List Nat}
    (h : read_response ext s input = .ok (s2, rest))
    (h1 : noBothSet s) (h2 : lastFresh s) : noBothSet s2 ∧ lastFresh s2 := by
  cases input with
  | nil => exact Except.noConfusion h
  | cons b rest0 => exact step_C5_dispatch h h1 h2

theorem step_C6_dispatch {ext : Ext} {b : Nat} {s s2 : ConnState} {rest0 rest : List Nat}
    (h : dispatchPkt ext b s rest0 = .ok (s2, rest))
    (h1 : rowsMatch s) : rowsMatch s2 := by
  unfold dispatchPkt at h
  · split at h
    case _ => -- A
      exact rowsMatch_of_eq (pkt_A_result h) h1
    case _ => -- B
      obtain ⟨l0, cur, rows0, row0, hres, hrows, hlen, hres2⟩ := applyReadRow_shape h
      intro l hl rs hmem row hrow
      rw [hl] at hres2
      cases hres2
      rcases List.mem_append.mp hmem with hm | hm
      · exact h1 _ hres rs (List.mem_append.mpr (Or.inl hm)) row hrow
      · simp at hm
        subst hm
        simp only [Option.getD_some] at hrow
        rcases List.mem_append.mp hrow with hr | hr
        · have := h1 _ hres cur (by simp) row
          rw [hrows] at this
          exact this hr
        · simp at hr
          subst hr
          exact hlen
    case _ => -- C
      obtain ⟨l0, cur, tag, hres, hres2⟩ := pkt_C_shape h
      intro l hl rs hmem row hrow
      rw [hl] at hres2
      cases hres2
      rcases List.mem_append.mp hmem with hm | hm
      · exact h1 _ hres rs (List.mem_append.mpr (Or.inl hm)) row hrow
      · simp at hm
        rcases hm with hm | hm <;> subst hm
        · exact h1 _ hres cur (by simp) row hrow
        · simp [freshRS] at hrow
    case _ => -- D
      obtain ⟨l0, cur, rows0, row0, hres, hrows, hlen, hres2⟩ := applyReadRow_shape h
      intro l hl rs hmem row hrow
      rw [hl] at hres2
      cases hres2
      rcases List.mem_append.mp hmem with hm | hm
      · exact h1 _ hres rs (List.mem_append.mpr (Or.inl hm)) row hrow
      · simp at hm
        subst hm
        simp only [Option.getD_some] at hrow
        rcases List.mem_append.mp hrow with hr | hr
        · have := h1 _ hres cur (by simp) row
          rw [hrows] at this
          exact this hr
        · simp at hr
          subst hr
          exact hlen
    case _ => -- E
      obtain ⟨l0, cur, msg, hres, hres2⟩ := pkt_E_shape h
      intro l hl rs hmem row hrow
      rw [hl] at hres2
      cases hres2
      rcases List.mem_append.mp hmem with hm | hm
      · exact h1 _ hres rs (List.mem_append.mpr (Or.inl hm)) row hrow
      · simp at hm
        rcases hm with hm | hm <;> subst hm
        · exact h1 _ hres cur (by simp) row hrow
        · simp [freshRS] at hrow
    case _ => -- G
      exact rowsMatch_of_eq (pkt_G_result h) h1
    case _ => -- H
      exact rowsMatch_of_eq (pkt_H_result h) h1
    case _ => -- I
      exact rowsMatch_of_eq (pkt_I_result h) h1
    case _ => -- K
      exact rowsMatch_of_eq (pkt_K_result h) h1
    case _ => -- N
      obtain ⟨l0, cur, n, hres, hres2⟩ := pkt_N_shape h
      intro l hl rs hmem row hrow
      rw [hl] at hres2
      cases hres2
      rcases List.mem_append.mp hmem with hm | hm
      · exact h1 _ hres rs (List.mem_append.mpr (Or.inl hm)) row hrow
      · simp at hm
        subst hm
        exact h1 _ hres cur (by simp) row hrow
    case _ => -- P
      exact rowsMatch_of_eq (pkt_P_result h) h1
    case _ => -- R
      exact rowsMatch_of_eq (pkt_R_result h) h1
    case _ => -- T
      obtain ⟨l0, cur, cur2, hres, hres2, hrows, herr, hcomp, hnf⟩ := pkt_T_shape h
      intro l hl rs hmem row hrow
      rw [hl] at hres2
      cases hres2
      rcases List.mem_append.mp hmem with hm | hm
      · exact h1 _ hres rs (List.mem_append.mpr (Or.inl hm)) row hrow
      · simp at hm
        subst hm
        rw [hrows] at hrow
        simp at hrow
    case _ => -- V
      exact rowsMatch_of_eq (pkt_V_result h) h1
    case _ => -- Z
      exact rowsMatch_of_eq (pkt_Z_result h) h1
    case _ => -- unknown tag
      exact Except.noConfusion h

theorem step_C6 {ext : Ext} {s s2 : ConnState} {input rest : List Nat}
    (h : read_response ext s input = .ok (s2, rest))
    (h1 : rowsMatch s) : rowsMatch s2 := by
  cases input with
  | nil => exact Except.noConfusion h
  | cons b rest0 => exact step_C6_dispatch h h1

/-- The number of bundles in the batch under construction, if one exists. -/
def bundleCount (s : ConnState) : Option Nat := s.result.map List.length

theorem bundleCount_of_modLast {s s2 : ConnState} {l0 : List MResultSet}
    {cur cur2 : MResultSet} (hres : s.result = some (l0 ++ [cur]))
    (hres2 : s2.result = some (l0 ++ [cur2])) (hc : bundleCount s = some 1) :
    bundleCount s2 = some 1 := by
  unfold bundleCount at hc ⊢
  rw [hres] at hc
  rw [hres2]
  simpa using hc

theorem bundleCount_of_eq {s s2 : ConnState} (he : s2.result = s.result)
    (hc : bundleCount s = some 1) : bundleCount s2 = some 1 := by
  unfold bundleCount at hc ⊢
  rw [he]
  exact hc

theorem step_C10_dispatch {ext : Ext} {b : Nat} {s s2 : ConnState} {rest0 rest : List Nat}
    (h : dispatchPkt ext b s rest0 = .ok (s2, rest))
    (hb67 : b ≠ 67) (hb69 : b ≠ 69)
    (hc : bundleCount s = some 1) : bundleCount s2 = some 1 := by
  unfold dispatchPkt at h
  · split at h
    case _ => -- A
      exact bundleCount_of_eq (pkt_A_result h) hc
    case _ => -- B
      obtain ⟨l0, cur, rows0, row0, hres, hrows, hlen, hres2⟩ := applyReadRow_shape h
      exact bundleCount_of_modLast hres hres2 hc
    case _ => -- C
      exact absurd rfl hb67
    case _ => -- D
      obtain ⟨l0, cur, rows0, row0, hres, hrows, hlen, hres2⟩ := applyReadRow_shape h
      exact bundleCount_of_modLast hres hres2 hc
    case _ => -- E
      exact absurd rfl hb69
    case _ => -- G
      exact bundleCount_of_eq (pkt_G_result h) hc
    case _ => -- H
      exact bundleCount_of_eq (pkt_H_result h) hc
    case _ => -- I
      exact bundleCount_of_eq (pkt_I_result h) hc
    case _ => -- K
      exact bundleCount_of_eq (pkt_K_result h) hc
    case _ => -- N
      obtain ⟨l0, cur, n, hres, hres2⟩ := pkt_N_shape h
      exact bundleCount_of_modLast hres hres2 hc
    case _ => -- P
      exact bundleCount_of_eq (pkt_P_result h) hc
    case _ => -- R
      exact bundleCount_of_eq (pkt_R_result h) hc
    case _ => -- T
      obtain ⟨l0, cur, cur2, hres, hres2, hrows, herr, hcomp, hnf⟩ := pkt_T_shape h
      exact bundleCount_of_modLast hres hres2 hc
    case _ => -- V
      exact bundleCount_of_eq (pkt_V_result h) hc
    case _ => -- Z
      exact bundleCount_of_eq (pkt_Z_result h) hc
    case _ => -- unknown tag
      exact Except.noConfusion h

/-! ## Claim theorems C5, C6, C10 over the batch loop -/

theorem execStart_result (pre : ConnState) (cmd : List Nat) :
    (execStart pre cmd).result = some [freshRS] := rfl

theorem runResponses_C5 (ext : Ext) :
    ∀ n s input s2 rest, runResponses ext n s input = .ok (s2, rest) →
      noBothSet s → lastFresh s → noBothSet s2 ∧ lastFresh s2 := by
  intro n
  induction n with
  | zero =>
    intro s input s2 rest h h1 h2
    simp only [runResponses] at h
    cases h
    exact ⟨h1, h2⟩
  | succ k ih =>
    intro s input s2 rest h h1 h2
    simp only [runResponses] at h
    cases hstep : read_response ext s input with
    | error e => rw [hstep] at h; exact Except.noConfusion h
    | ok p =>
      rw [hstep] at h
      obtain ⟨s1, r1⟩ := p
      obtain ⟨h1a, h2a⟩ := step_C5 hstep h1 h2
      exact ih s1 r1 s2 rest h h1a h2a

theorem runResponses_C6 (ext : Ext) :
    ∀ n s input s2 rest, runResponses ext n s input = .ok (s2, rest) →
      rowsMatch s → rowsMatch s2 := by
  intro n
  induction n with
  | zero =>
    intro s input s2 rest h h1
    simp only [runResponses] at h
    cases h
    exact h1
  | succ k ih =>
    intro s input s2 rest h h1
    simp only [runResponses] at h
    cases hstep : read_response ext s input with
    | error e => rw [hstep] at h; exact Except.noConfusion h
    | ok p =>
      rw [hstep] at h
      obtain ⟨s1, r1⟩ := p
      exact ih s1 r1 s2 rest h (step_C6 hstep h1)

/-- C5: starting from `_execute`'s initial batch (one fresh bundle) and
processing any sequence of packets, no bundle of the resulting batch ever has
both its error string and its completion tag set: the `C` handler tags the
current bundle (whose error is still unset) and immediately starts a fresh
bundle, and the `E` handler does the same with the error string. -/
theorem claim_C5_error_completion_exclusive (ext : Ext) (n : Nat) (pre : ConnState)
    (cmd input : List Nat) (s2 : ConnState) (rest : List Nat)
    (h : runResponses ext n (execStart pre cmd) input = .ok (s2, rest)) :
    ∀ l, s2.result = some l → ∀ rs ∈ l, ¬(rs.error ≠ none ∧ rs.completed ≠ none) := by
  have h1 : noBothSet (execStart pre cmd) := by
    intro l hl rs hm
    rw [execStart_result] at hl
    cases hl
    simp at hm
    subst hm
    exact Or.inl rfl
  have h2 : lastFresh (execStart pre cmd) := by
    intro l hl rs hlast
    rw [execStart_result] at hl
    cases hl
    simp at hlast
    subst hlast
    exact ⟨rfl, rfl⟩
  obtain ⟨hnb, _⟩ := runResponses_C5 ext n _ input s2 rest h h1 h2
  intro l hl rs hm hcon
  rcases hnb l hl rs hm with he | hc
  · exact hcon.1 he
  · exact hcon.2 hc

/-- C5 witness: one `C` packet processed from a fresh batch. -/
def execState0 : ConnState := execStart startupState []

/-- The bundle tagged by the witness `C` packet (empty completion tag). -/
def rsCompleted : MResultSet := { freshRS with completed := some [] }

/-- The state after the C5 witness run. -/
def s5w : ConnState :=
  { startupState with result := some [rsCompleted, freshRS], sent := [[81, 0]] }

theorem claim_C5_witness :
    runResponses ext0 1 execState0 [67, 0] = .ok (s5w, []) ∧
    ¬(freshRS.error ≠ none ∧ freshRS.completed ≠ none) := by
  have h : runResponses ext0 1 execState0 [67, 0] = .ok (s5w, []) := by rfl
  exact ⟨h, claim_C5_error_completion_exclusive ext0 1 startupState [] [67, 0] s5w [] h
    [rsCompleted, freshRS] rfl freshRS (by simp)⟩

/-- C6: starting from `_execute`'s initial batch and processing any sequence
of packets, every row stored in any bundle has exactly as many values
(nulls included) as the bundle's `num_fields` — the field count that the most
recent RowDescription (`T`) packet declared for that bundle: `num_fields` is
written only by `set_description`, which also resets `rows` to `[]`, and
`__read_row` appends rows of exactly `num_fields` entries. -/
theorem claim_C6_row_width (ext : Ext) (n : Nat) (pre : ConnState)
    (cmd input : List Nat) (s2 : ConnState) (rest : List Nat)
    (h : runResponses ext n (execStart pre cmd) input = .ok (s2, rest)) :
    ∀ l, s2.result = some l → ∀ rs ∈ l, ∀ row ∈ rs.rows.getD [],
      row.length = rs.num_fields := by
  have h1 : rowsMatch (execStart pre cmd) := by
    intro l hl rs hm row hrow
    rw [execStart_result] at hl
    cases hl
    simp at hm
    subst hm
    simp [freshRS] at hrow
  exact runResponses_C6 ext n _ input s2 rest h h1

/-- Pre-state for the C6 witness: the connection after binding OID 17 to
`bytea`, as the bootstrap `__initialize_type_map` does. -/
def preC6 : ConnState :=
  { startupState with
    heap := (register_oid defaultHeap (cloneTM DEFAULT_TYPE_MANAGER) 17 nmBytea).1,
    type_manager := (register_oid defaultHeap (cloneTM DEFAULT_TYPE_MANAGER) 17 nmBytea).2 }

/-- The single bundle produced by the C6 witness run: one `T` declaring one
field (named `a`, OID 17 = `bytea`) followed by one ASCII `D` row. -/
def rs6w : MResultSet :=
  { conversion := some [.identityConv], description := some [([97], .BINARY)],
    error := none, null_byte_count := 1, num_fields := 1,
    rows := some [[some (.vbytes [65])]], messages := [], completed := none }

/-- The state after the C6 witness run. -/
def s6w : ConnState :=
  { preC6 with result := some [rs6w], sent := [[81, 0]] }

/-- The C6 witness input: a RowDescription for one field named `a` with OID
17, then an AsciiRow with bitmap `0x80` and one 5-byte (4+1) field. -/
def inputC6 : List Nat :=
  [84, 0, 1, 97, 0, 0, 0, 0, 17, 0, 4, 0, 0, 0, 0, 68, 128, 0, 0, 0, 5, 65]

theorem claim_C6_witness :
    runResponses ext0 2 (execStart preC6 []) inputC6 = .ok (s6w, []) ∧
    [some (Value.vbytes [65])].length = rs6w.num_fields := by
  have h : runResponses ext0 2 (execStart preC6 []) inputC6 = .ok (s6w, []) := by rfl
  exact ⟨h, claim_C6_row_width ext0 2 preC6 [] inputC6 s6w [] h
    [rs6w] rfl rs6w (by simp) [some (Value.vbytes [65])] (by simp [rs6w])⟩

/-- C10: a batch that sees neither `C` nor `E` keeps exactly one (fresh)
bundle, and on such a batch the post-loop extraction of `_execute` — strip
the trailing bundle with `[:-1]`, then index `[0]` — hits an empty list and
raises a raw `IndexError`, which is not one of the module's DB-API `Error`
subclasses.  (An `I` EmptyQuery packet is such a no-bundle-effect packet.) -/
theorem claim_C10_empty_batch_index_error :
    (∀ pre : ConnState, ∀ cmd : List Nat, bundleCount (execStart pre cmd) = some 1) ∧
    (∀ (ext : Ext) (b : Nat) (s : ConnState) (rest0 : List Nat) (s2 : ConnState)
      (rest : List Nat), read_response ext s (b :: rest0) = .ok (s2, rest) →
      b ≠ 67 → b ≠ 69 → bundleCount s = some 1 → bundleCount s2 = some 1) ∧
    (∀ (s : ConnState) (rs : MResultSet), s.result = some [rs] →
      extractResult s = .error PyErr.indexError ∧ PyErr.indexError.isDbApi = false) := by
  refine ⟨fun pre cmd => rfl, ?_, ?_⟩
  · intro ext b s rest0 s2 rest h hb67 hb69 hc
    exact step_C10_dispatch h hb67 hb69 hc
  · intro s rs hres
    constructor
    · unfold extractResult
      rw [hres]
      simp
    · rfl

theorem claim_C10_witness :
    read_response ext0 execState0 [73, 0] = .ok (execState0, []) ∧
    bundleCount execState0 = some 1 ∧
    extractResult execState0 = .error PyErr.indexError ∧
    PyErr.indexError.isDbApi = false := by
  obtain ⟨c1, c2, c3⟩ := claim_C10_empty_batch_index_error
  have h73 : read_response ext0 execState0 [73, 0] = .ok (execState0, []) := by rfl
  have a2 : bundleCount execState0 = some 1 :=
    c2 ext0 73 execState0 [0] execState0 [] h73 (by decide) (by decide)
      (c1 startupState [])
  obtain ⟨a3, a4⟩ := c3 execState0 freshRS rfl
  exact ⟨h73, a2, a3, a4⟩

/-! ## Witnesses for the remaining hypothesis-bearing claims -/

/-- The concrete result set used by the C1 witness: two fields, one-byte
bitmap, identity decoders. -/
def rsW : MResultSet :=
  { conversion := some [.identityConv, .identityConv], description := none,
    error := none, null_byte_count := 1, num_fields := 2, rows := some [],
    messages := [], completed := none }

theorem claim_C1_witness :
    (rsW.null_byte_count = (rsW.num_fields + 7) / 8) ∧
    (∀ b ∈ [128, 0, 0, 0, 5, 65], b < 256) ∧
    readRow true rsW [128, 0, 0, 0, 5, 65] =
      (specRowDecode true rsW.num_fields rsW.conversion [128, 0, 0, 0, 5, 65]).map
        (fun p => ({ rsW with rows := some ([] ++ [p.1]) }, p.2)) :=
  ⟨by decide, by decide,
    claim_C1_row_framing true rsW [128, 0, 0, 0, 5, 65] [] (by decide) (by decide) rfl⟩

theorem claim_C2_witness :
    (0 < defaultHeap.length) ∧
    ((heapGet (register_oid defaultHeap (cloneTM DEFAULT_TYPE_MANAGER) 42 nmChar).1 0).name
        = (heapGet defaultHeap 0).name ∧
      (heapGet (register_oid defaultHeap (cloneTM DEFAULT_TYPE_MANAGER) 42 nmChar).1 0).converter
        = (heapGet defaultHeap 0).converter ∧
      (heapGet (register_oid defaultHeap (cloneTM DEFAULT_TYPE_MANAGER) 42 nmChar).1 0).type_id
        = (heapGet defaultHeap 0).type_id) ∧
    heapGet (register_oid defaultHeap (cloneTM DEFAULT_TYPE_MANAGER) 42 nmChar).1 0
      = { heapGet defaultHeap 0 with oid := some 42 } := by
  obtain ⟨hfields, hshared⟩ :=
    claim_C2_amended defaultHeap DEFAULT_TYPE_MANAGER 42 nmChar 0 (by decide)
  exact ⟨by decide, hfields, hshared 0 (by decide) (by decide)⟩

/-- The heap after the C3 witness bootstrap `register_oid(42, 'foo')`. -/
def c3Heap : Heap := (register_oid [] emptyTM 42 nmFoo).1

/-- The manager after the C3 witness bootstrap. -/
def c3TM : TypeManager := (register_oid [] emptyTM 42 nmFoo).2

theorem claim_C3_witness :
    lookupA c3TM.pg_types nmFoo = some 0 ∧
    ((heapGet c3Heap 0).oid = some 42) ∧
    (lookupA (register_pgsql c3Heap c3TM [nmFoo] Converter.intConv TypeId.NUMBER).2.oid_map 42
        = some c3Heap.length ∧
      heapGet (register_pgsql c3Heap c3TM [nmFoo] Converter.intConv TypeId.NUMBER).1 c3Heap.length
        = { name := nmFoo, converter := Converter.intConv, type_id := TypeId.NUMBER, oid := none } ∧
      lookupA (register_pgsql c3Heap c3TM [nmFoo] Converter.intConv TypeId.NUMBER).2.pg_types nmFoo
        = some c3Heap.length) := by
  have h := claim_C3_amended c3Heap c3TM nmFoo Converter.intConv TypeId.NUMBER 0 (by decide)
  exact ⟨by decide, by decide, h.1 42 (by decide)⟩

end Bpgsql
